import Mathlib

/-!
Verification of the query resolution engine of the mimic-fhir-api repository
(`src/main.py`): NDJSON record store, FHIR search-parameter parsing, predicate
compilation, the multi-tier counting strategies, paging, ETag generation and
the read/search endpoints.  Python's runtime primitives (string operations,
`json.loads` / `json.dumps`, `datetime.fromisoformat`, `int()`, MD5) are
embedded as executable Lean functions on `List Char` / `Nat` / `Int`; the
documentation comment of each definition names the Python construct it
models and any totalization applied to code paths that would raise an
uncaught exception in Python.
-/

/-! ## Character and string primitives (models of Python `str` operations) -/

/-- Decimal digit test (ASCII), as used by Python's `int()` and `json`. -/
def isDigitChar (c : Char) : Bool := '0' ≤ c ∧ c ≤ '9'

/-- Value of a decimal digit. -/
def digitVal (c : Char) : Nat := c.toNat - '0'.toNat

/-- ASCII whitespace, the characters stripped by Python `str.strip()` and
`int()` (the unicode-only whitespace characters are outside the modelled
subset). -/
def pyIsSpace (c : Char) : Bool :=
  c = ' ' ∨ c = '\t' ∨ c = '\n' ∨ c = '\r' ∨ c = '\x0b' ∨ c = '\x0c'

/-- Tests whether `pat` is a leading segment of `s` (character lists). -/
def startsWithChars : List Char → List Char → Bool
  | [], _ => true
  | _ :: _, [] => false
  | a :: as, b :: bs => a = b && startsWithChars as bs

/-- Tests whether `pat` occurs contiguously inside `s`: Python's
`pat in s` substring test on strings. -/
def containsChars (pat : List Char) : List Char → Bool
  | [] => startsWithChars pat []
  | c :: rest => startsWithChars pat (c :: rest) || containsChars pat rest

/-- Python `needle in hay` for strings (substring containment). -/
def strContains (hay needle : String) : Bool :=
  containsChars needle.data hay.data

/-- Python `s.endswith(suffix)`. -/
def strEndsWith (s suf : String) : Bool :=
  startsWithChars suf.data.reverse s.data.reverse

/-- Fuel-driven worker for `strReplace`; the fuel (initialised to the length
of the subject string) dominates the number of characters consumed, so the
result on inputs arising from `strReplace` is exact. -/
def replaceCharsF (pat rep : List Char) : Nat → List Char → List Char
  | _, [] => []
  | 0, s => s
  | fuel + 1, c :: rest =>
    if pat ≠ [] ∧ startsWithChars pat (c :: rest) then
      rep ++ replaceCharsF pat rep fuel (List.drop (pat.length - 1) rest)
    else
      c :: replaceCharsF pat rep fuel rest

/-- Python `s.replace(pat, rep)`: replaces every non-overlapping occurrence,
left to right (the source only calls it with the nonempty pattern `"Z"`). -/
def strReplace (s pat rep : String) : String :=
  ⟨replaceCharsF pat.data rep.data s.data.length s.data⟩

/-- Python `s.split('/')[-1]`: the suffix of `s` after its last `'/'`
(the whole of `s` when no slash occurs). -/
def lastSlashSeg (s : String) : String :=
  ⟨(s.data.reverse.takeWhile (fun c => c ≠ '/')).reverse⟩

/-- Python `s.split('|', 1)` as used on a two-part token: the segments before
and after the first `'|'`. -/
def splitOncePipe (s : String) : String × String :=
  let p := s.data.span (fun c => c ≠ '|')
  (⟨p.1⟩, ⟨p.2.drop 1⟩)

/-- Python `s.lower()` restricted to ASCII letters (the only case-bearing
characters occurring in the modelled data). -/
def strLower (s : String) : String := ⟨s.data.map Char.toLower⟩

/-- Joins rendered fragments with a separator, as `sep.join(parts)`. -/
def joinWith (sep : String) : List String → String
  | [] => ""
  | [x] => x
  | x :: y :: xs => x ++ sep ++ joinWith sep (y :: xs)

/-- Python string truthiness of an optional string: `None` and `""` are
falsy, everything else truthy. -/
def truthyS : Option String → Bool
  | none => false
  | some s => s ≠ ""

/-- Python `a or b` on two optional strings: yields `a` when truthy,
otherwise `b` unchanged. -/
def pyOr (a b : Option String) : Option String :=
  if truthyS a then a else b

/-! ## JSON values

The record documents of the store.  Numbers are modelled as integers: the
claims under verification exercise objects, arrays, strings, booleans and
null, and a numeral with a fractional part or exponent is outside the
modelled subset of `json.loads` (such a line is treated as unparseable by
the model). -/

inductive Json where
  | jnull : Json
  | jbool : Bool → Json
  | jnum : Int → Json
  | jstr : String → Json
  | jarr : List Json → Json
  | jobj : List (String × Json) → Json

/-- Field lookup in an object's field list (first occurrence; the parser
below never produces duplicate keys, mirroring a Python `dict`). -/
def lookupField : List (String × Json) → String → Option Json
  | [], _ => none
  | (k, v) :: rest, key => if k = key then some v else lookupField rest key

/-- Python `resource.get(key)` on a parsed record: `None` when the record is
not a dict or lacks the key.  (On a non-dict record Python would raise
`AttributeError`; the model totalizes this to `None`.) -/
def jget : Json → String → Option Json
  | .jobj fields, key => lookupField fields key
  | _, _ => none

/-- Insertion into a field list with Python `dict` semantics: an existing
key keeps its position and receives the new value, a fresh key is appended. -/
def insertField (fields : List (String × Json)) (k : String) (v : Json) :
    List (String × Json) :=
  match fields with
  | [] => [(k, v)]
  | (k0, v0) :: rest =>
    if k0 = k then (k0, v) :: rest else (k0, v0) :: insertField rest k v

/-! ## A model of `json.loads` (strict mode, integer numerals) -/

/-- JSON structural whitespace. -/
def jsonWs (c : Char) : Bool := c = ' ' ∨ c = '\t' ∨ c = '\n' ∨ c = '\r'

/-- Skips JSON whitespace. -/
def skipWs : List Char → List Char
  | [] => []
  | c :: rest => if jsonWs c then skipWs rest else c :: rest

/-- Hexadecimal digit value for `\uXXXX` escapes. -/
def hexVal (c : Char) : Option Nat :=
  if isDigitChar c then some (digitVal c)
  else if 'a' ≤ c ∧ c ≤ 'f' then some (c.toNat - 'a'.toNat + 10)
  else if 'A' ≤ c ∧ c ≤ 'F' then some (c.toNat - 'A'.toNat + 10)
  else none

/-- Parses the remainder of a JSON string literal (after the opening quote),
accumulating characters in reverse.  Strict mode: an unescaped control
character is rejected; a `\uXXXX` escape denoting a surrogate is outside the
modelled subset. -/
def parseJStringAux : List Char → List Char → Option (String × List Char)
  | _, [] => none
  | acc, '"' :: rest => some (⟨acc.reverse⟩, rest)
  | acc, '\\' :: e :: rest =>
    match e with
    | '"' => parseJStringAux ('"' :: acc) rest
    | '\\' => parseJStringAux ('\\' :: acc) rest
    | '/' => parseJStringAux ('/' :: acc) rest
    | 'b' => parseJStringAux ('\x08' :: acc) rest
    | 'f' => parseJStringAux ('\x0c' :: acc) rest
    | 'n' => parseJStringAux ('\n' :: acc) rest
    | 'r' => parseJStringAux ('\r' :: acc) rest
    | 't' => parseJStringAux ('\t' :: acc) rest
    | 'u' =>
      match rest with
      | h1 :: h2 :: h3 :: h4 :: rest' =>
        match hexVal h1, hexVal h2, hexVal h3, hexVal h4 with
        | some a, some b, some c, some d =>
          let v := ((a * 16 + b) * 16 + c) * 16 + d
          if 0xd800 ≤ v ∧ v ≤ 0xdfff then none
          else parseJStringAux (Char.ofNat v :: acc) rest'
        | _, _, _, _ => none
      | _ => none
    | _ => none
  | acc, c :: rest =>
    if c.toNat < 0x20 then none else parseJStringAux (c :: acc) rest

/-- Digit-run accumulator for JSON integers. -/
def jsonDigits (acc : Nat) : List Char → Nat × List Char
  | [] => (acc, [])
  | c :: rest =>
    if isDigitChar c then jsonDigits (acc * 10 + digitVal c) rest
    else (acc, c :: rest)

/-- Parses a JSON integer numeral: optional minus, `0` or a nonzero-led digit
run, no leading zeros; a following `.`, `e` or `E` (a float literal) is
outside the modelled subset and rejected. -/
def parseJNumber (cs : List Char) : Option (Int × List Char) :=
  let body : List Char → Option (Nat × List Char) := fun ds =>
    match ds with
    | [] => none
    | '0' :: rest =>
      match rest with
      | c :: _ => if isDigitChar c then none else some (0, rest)
      | [] => some (0, [])
    | c :: rest =>
      if isDigitChar c then some (jsonDigits (digitVal c) rest) else none
  let finish : Int → List Char → Option (Int × List Char) := fun v rest =>
    match rest with
    | c :: _ => if c = '.' ∨ c = 'e' ∨ c = 'E' then none else some (v, rest)
    | [] => some (v, [])
  match cs with
  | '-' :: ds =>
    match body ds with
    | some (n, rest) => finish (-(n : Int)) rest
    | none => none
  | ds =>
    match body ds with
    | some (n, rest) => finish (n : Int) rest
    | none => none

mutual

/-- Fuel-indexed JSON value parser; the fuel (initialised to the input
length plus one) dominates the nesting depth, so the parse of a valid
input never exhausts it. -/
def parseValue : Nat → List Char → Option (Json × List Char)
  | 0, _ => none
  | fuel + 1, cs =>
    match skipWs cs with
    | 't' :: 'r' :: 'u' :: 'e' :: rest => some (.jbool true, rest)
    | 'f' :: 'a' :: 'l' :: 's' :: 'e' :: rest => some (.jbool false, rest)
    | 'n' :: 'u' :: 'l' :: 'l' :: rest => some (.jnull, rest)
    | '"' :: rest =>
      match parseJStringAux [] rest with
      | some (s, rest') => some (.jstr s, rest')
      | none => none
    | '\x7b' :: rest =>
      (match skipWs rest with
       | '\x7d' :: rest' => some (.jobj [], rest')
       | cs' => parseMembers fuel [] cs')
    | '[' :: rest =>
      (match skipWs rest with
       | ']' :: rest' => some (.jarr [], rest')
       | cs' => parseElements fuel [] cs')
    | cs' =>
      match parseJNumber cs' with
      | some (v, rest) => some (.jnum v, rest)
      | none => none

/-- Parses the members of a JSON object from the first key onwards,
inserting with `dict` semantics. -/
def parseMembers : Nat → List (String × Json) → List Char →
    Option (Json × List Char)
  | 0, _, _ => none
  | fuel + 1, acc, cs =>
    match skipWs cs with
    | '"' :: rest =>
      match parseJStringAux [] rest with
      | some (k, rest') =>
        (match skipWs rest' with
         | ':' :: rest'' =>
           match parseValue fuel rest'' with
           | some (v, rest3) =>
             let acc' := insertField acc k v
             (match skipWs rest3 with
              | ',' :: rest4 => parseMembers fuel acc' rest4
              | '\x7d' :: rest4 => some (.jobj acc', rest4)
              | _ => none)
           | none => none
         | _ => none)
      | none => none
    | _ => none

/-- Parses the elements of a JSON array from the first element onwards. -/
def parseElements : Nat → List Json → List Char → Option (Json × List Char)
  | 0, _, _ => none
  | fuel + 1, acc, cs =>
    match parseValue fuel cs with
    | some (v, rest) =>
      (match skipWs rest with
       | ',' :: rest' => parseElements fuel (acc ++ [v]) rest'
       | ']' :: rest' => some (.jarr (acc ++ [v]), rest')
       | _ => none)
    | none => none

end

/-- Model of `json.loads` on one line of text: a single JSON document with
optional surrounding whitespace; any trailing garbage fails the parse, as
does any construct outside the modelled subset (floats, surrogate
escapes). -/
def json_loads (s : String) : Option Json :=
  match parseValue (s.length + 1) s.data with
  | some (j, rest) => if skipWs rest = [] then some j else none
  | none => none

/-! ## A model of `json.dumps(data, sort_keys=True, separators=(',', ':'))` -/

/-- Two-digit lowercase hexadecimal rendering of a byte. -/
def hexDigit (n : Nat) : Char :=
  if n < 10 then Char.ofNat ('0'.toNat + n) else Char.ofNat ('a'.toNat + n - 10)

/-- Four-digit lowercase hexadecimal rendering, for `\uXXXX` escapes. -/
def hex4 (n : Nat) : List Char :=
  [hexDigit (n / 4096 % 16), hexDigit (n / 256 % 16),
   hexDigit (n / 16 % 16), hexDigit (n % 16)]

/-- Escapes one character the way `json.dumps` (with its default
`ensure_ascii=True`) does: short escapes for the common control characters,
`\uXXXX` for the rest of the non-printable or non-ASCII range, surrogate
pairs beyond the BMP. -/
def jsonEscapeChar (c : Char) : List Char :=
  if c = '"' then ['\\', '"']
  else if c = '\\' then ['\\', '\\']
  else if c = '\n' then ['\\', 'n']
  else if c = '\r' then ['\\', 'r']
  else if c = '\t' then ['\\', 't']
  else if c = '\x08' then ['\\', 'b']
  else if c = '\x0c' then ['\\', 'f']
  else if c.toNat < 0x20 ∨ c.toNat > 0x7e then
    if c.toNat < 0x10000 then '\\' :: 'u' :: hex4 c.toNat
    else
      let v := c.toNat - 0x10000
      ('\\' :: 'u' :: hex4 (0xd800 + v / 0x400)) ++
        ('\\' :: 'u' :: hex4 (0xdc00 + v % 0x400))
  else [c]

/-- Worker concatenating the escaped characters of a string body. -/
def jsonEscapeList : List Char → List Char
  | [] => []
  | c :: rest => jsonEscapeChar c ++ jsonEscapeList rest

/-- Serialization of a JSON string literal, quotes included. -/
def dumpJString (s : String) : String :=
  ⟨'"' :: jsonEscapeList s.data ++ ['"']⟩

/-- Code-point lexicographic comparison of character lists: Python's
ordering of `str` values, used by `sort_keys=True`.  (Defined directly so
that it evaluates inside the kernel.) -/
def charListLE : List Char → List Char → Bool
  | [], _ => true
  | _ :: _, [] => false
  | a :: as, b :: bs =>
    if a.toNat < b.toNat then true
    else if b.toNat < a.toNat then false
    else charListLE as bs

/-- Key order used by `sort_keys=True`: comparison of the key component. -/
def keyLE (a b : String × String) : Prop := charListLE a.1.data b.1.data = true

instance : DecidableRel keyLE :=
  fun a b => inferInstanceAs (Decidable (charListLE a.1.data b.1.data = true))

/-- Sorts rendered `(key, fragment)` pairs by key.  Python sorts the keys
and then renders the members in key order; rendering first and sorting the
rendered pairs by key produces the identical output, since the comparison
consults only the key. -/
def sortPairs (l : List (String × String)) : List (String × String) :=
  List.insertionSort keyLE l

/-- Fuel-indexed worker of the canonical serializer.  The fuel strictly
dominates the nesting depth, so the zero-fuel branch is unreachable for the
fuel used by `json_dumps_canonical`; structural recursion on the fuel keeps
the definition kernel-reducible. -/
def dumpsF : Nat → Json → String
  | 0, _ => ""
  | fuel + 1, j =>
    match j with
    | .jnull => "null"
    | .jbool true => "true"
    | .jbool false => "false"
    | .jnum v => toString v
    | .jstr s => dumpJString s
    | .jarr xs => "[" ++ joinWith "," (xs.map (dumpsF fuel)) ++ "]"
    | .jobj fields =>
      "\x7b" ++ joinWith ","
        ((sortPairs (fields.map (fun kv =>
          (kv.1, dumpJString kv.1 ++ ":" ++ dumpsF fuel kv.2)))).map Prod.snd)
        ++ "\x7d"

mutual

/-- Node count of a JSON value, the fuel bound for the serializer. -/
def jsonSize : Json → Nat
  | .jnull => 1
  | .jbool _ => 1
  | .jnum _ => 1
  | .jstr _ => 1
  | .jarr xs => 1 + jsonSizeList xs
  | .jobj fields => 1 + jsonSizeFields fields

/-- Node count of an array's elements. -/
def jsonSizeList : List Json → Nat
  | [] => 0
  | x :: xs => jsonSize x + jsonSizeList xs

/-- Node count of an object's members. -/
def jsonSizeFields : List (String × Json) → Nat
  | [] => 0
  | (_, v) :: rest => jsonSize v + jsonSizeFields rest

end

/-- Model of `json.dumps(·, sort_keys=True, separators=(',', ':'))`: the
canonical serialization used for ETag generation — keys sorted, no
incidental whitespace.  Python sorts each object's keys and serializes the
members in key order; rendering every member first and sorting the rendered
`(key, fragment)` pairs by key produces the identical bytes, since the
comparison consults only the key.  The node count strictly dominates the
nesting depth, so the serializer's zero-fuel branch is unreachable. -/
def json_dumps_canonical (j : Json) : String := dumpsF (jsonSize j) j

/-! ## UTF-8 encoding and MD5 (for `generate_etag`)

`hashlib.md5(content.encode('utf-8')).hexdigest()` is embedded as arithmetic
on `Nat` with explicit reduction modulo `2 ^ 32`. -/

/-- UTF-8 encoding of one character (byte values as `Nat`). -/
def utf8EncodeChar (c : Char) : List Nat :=
  let v := c.toNat
  if v < 0x80 then [v]
  else if v < 0x800 then [0xc0 + v / 64, 0x80 + v % 64]
  else if v < 0x10000 then
    [0xe0 + v / 4096, 0x80 + v / 64 % 64, 0x80 + v % 64]
  else
    [0xf0 + v / 0x40000, 0x80 + v / 4096 % 64, 0x80 + v / 64 % 64, 0x80 + v % 64]

/-- UTF-8 byte sequence of a string, Python `content.encode('utf-8')`. -/
def utf8Bytes : List Char → List Nat
  | [] => []
  | c :: cs => utf8EncodeChar c ++ utf8Bytes cs

/-- The 64 MD5 sine-derived round constants. -/
def md5K : List Nat :=
  [0xd76aa478, 0xe8c7b756, 0x242070db, 0xc1bdceee,
   0xf57c0faf, 0x4787c62a, 0xa8304613, 0xfd469501,
   0x698098d8, 0x8b44f7af, 0xffff5bb1, 0x895cd7be,
   0x6b901122, 0xfd987193, 0xa679438e, 0x49b40821,
   0xf61e2562, 0xc040b340, 0x265e5a51, 0xe9b6c7aa,
   0xd62f105d, 0x02441453, 0xd8a1e681, 0xe7d3fbc8,
   0x21e1cde6, 0xc33707d6, 0xf4d50d87, 0x455a14ed,
   0xa9e3e905, 0xfcefa3f8, 0x676f02d9, 0x8d2a4c8a,
   0xfffa3942, 0x8771f681, 0x6d9d6122, 0xfde5380c,
   0xa4beea44, 0x4bdecfa9, 0xf6bb4b60, 0xbebfbc70,
   0x289b7ec6, 0xeaa127fa, 0xd4ef3085, 0x04881d05,
   0xd9d4d039, 0xe6db99e5, 0x1fa27cf8, 0xc4ac5665,
   0xf4292244, 0x432aff97, 0xab9423a7, 0xfc93a039,
   0x655b59c3, 0x8f0ccc92, 0xffeff47d, 0x85845dd1,
   0x6fa87e4f, 0xfe2ce6e0, 0xa3014314, 0x4e0811a1,
   0xf7537e82, 0xbd3af235, 0x2ad7d2bb, 0xeb86d391]

/-- The MD5 per-round left-rotation amounts. -/
def md5S : List Nat :=
  [7, 12, 17, 22, 7, 12, 17, 22, 7, 12, 17, 22, 7, 12, 17, 22,
   5, 9, 14, 20, 5, 9, 14, 20, 5, 9, 14, 20, 5, 9, 14, 20,
   4, 11, 16, 23, 4, 11, 16, 23, 4, 11, 16, 23, 4, 11, 16, 23,
   6, 10, 15, 21, 6, 10, 15, 21, 6, 10, 15, 21, 6, 10, 15, 21]

/-- Left rotation of a 32-bit word held in a `Nat`. -/
def rotl32 (x c : Nat) : Nat :=
  ((x <<< c) ||| (x >>> (32 - c))) % 2 ^ 32

/-- Little-endian 32-bit word at word index `g` of a 64-byte block. -/
def md5Word (block : List Nat) (g : Nat) : Nat :=
  block.getD (4 * g) 0 + 256 * block.getD (4 * g + 1) 0 +
    65536 * block.getD (4 * g + 2) 0 + 16777216 * block.getD (4 * g + 3) 0

/-- One MD5 round (round index `i`, state `(a, b, c, d)`). -/
def md5RoundStep (block : List Nat) (i : Nat) :
    Nat × Nat × Nat × Nat → Nat × Nat × Nat × Nat
  | (a, b, c, d) =>
    let mask := 2 ^ 32 - 1
    let fg : Nat × Nat :=
      if i < 16 then ((b &&& c) ||| ((mask ^^^ b) &&& d), i)
      else if i < 32 then ((d &&& b) ||| ((mask ^^^ d) &&& c), (5 * i + 1) % 16)
      else if i < 48 then (b ^^^ c ^^^ d, (3 * i + 5) % 16)
      else (c ^^^ (b ||| (mask ^^^ d)), (7 * i) % 16)
    let f := (fg.1 + a + md5K.getD i 0 + md5Word block fg.2) % 2 ^ 32
    (d, (b + rotl32 f (md5S.getD i 0)) % 2 ^ 32, b, c)

/-- Runs `fuel` MD5 rounds starting at round index `i`. -/
def md5Rounds (block : List Nat) : Nat → Nat → Nat × Nat × Nat × Nat →
    Nat × Nat × Nat × Nat
  | 0, _, st => st
  | fuel + 1, i, st => md5Rounds block fuel (i + 1) (md5RoundStep block i st)

/-- Compression of one 64-byte block into the running MD5 state. -/
def md5Compress (block : List Nat) (st : Nat × Nat × Nat × Nat) :
    Nat × Nat × Nat × Nat :=
  match st, md5Rounds block 64 0 st with
  | (a0, b0, c0, d0), (a, b, c, d) =>
    ((a0 + a) % 2 ^ 32, (b0 + b) % 2 ^ 32, (c0 + c) % 2 ^ 32, (d0 + d) % 2 ^ 32)

/-- Folds the compression function over `n` consecutive 64-byte blocks. -/
def md5Blocks : Nat → List Nat → Nat × Nat × Nat × Nat → Nat × Nat × Nat × Nat
  | 0, _, st => st
  | n + 1, bytes, st => md5Blocks n (bytes.drop 64) (md5Compress (bytes.take 64) st)

/-- MD5 padding: a `0x80` byte, zeros to 56 mod 64, then the bit length as a
little-endian 64-bit quantity. -/
def md5Pad (msg : List Nat) : List Nat :=
  let r := (msg.length + 1) % 64
  let zeros := if r ≤ 56 then 56 - r else 120 - r
  let ml := (8 * msg.length) % 2 ^ 64
  msg ++ [0x80] ++ List.replicate zeros 0 ++
    [ml % 256, ml / 256 % 256, ml / 65536 % 256, ml / 16777216 % 256,
     ml / 2 ^ 32 % 256, ml / 2 ^ 40 % 256, ml / 2 ^ 48 % 256, ml / 2 ^ 56 % 256]

/-- Little-endian byte decomposition of a 32-bit state word. -/
def wordLEBytes (w : Nat) : List Nat :=
  [w % 256, w / 256 % 256, w / 65536 % 256, w / 16777216 % 256]

/-- Lowercase hexadecimal rendering of a byte list. -/
def bytesToHex : List Nat → List Char
  | [] => []
  | b :: bs => hexDigit (b / 16 % 16) :: hexDigit (b % 16) :: bytesToHex bs

/-- Model of `hashlib.md5(bytes).hexdigest()`. -/
def md5_hexdigest (msg : List Nat) : String :=
  let padded := md5Pad msg
  match md5Blocks (padded.length / 64) padded
      (0x67452301, 0xefcdab89, 0x98badcfe, 0x10325476) with
  | (a, b, c, d) =>
    ⟨bytesToHex (wordLEBytes a ++ wordLEBytes b ++ wordLEBytes c ++ wordLEBytes d)⟩

/-- Model of `generate_etag` (src/main.py 44-51) on its dict branch, the only
branch exercised by the endpoints (every call site passes a dict):
`content = json.dumps(data, sort_keys=True, separators=(',', ':'))` followed
by the MD5 hex digest of the UTF-8 bytes of `content`.  The `str(data)`
fallback for non-dict inputs is outside the model. -/
def generate_etag (data : Json) : String :=
  md5_hexdigest (utf8Bytes (json_dumps_canonical data).data)

/-! ## Query parameters (`FHIRSearchParameters`, src/main.py 130-204) -/

/-- The raw query-parameter mapping handed over by the transport layer
(`dict(request.query_params)`): string keys with string values, each key
occurring once. -/
abbrev Params := List (String × String)

/-- Python `params.get(key)`. -/
def getParam : Params → String → Option String
  | [], _ => none
  | (k0, v0) :: rest, k => if k0 = k then some v0 else getParam rest k

/-- Python `key in params`. -/
def hasKey (p : Params) (k : String) : Bool := (getParam p k).isSome

/-- Python `dict` update `params[key] = value`: an existing key keeps its
position and receives the new value, a fresh key is appended. -/
def setParam : Params → String → String → Params
  | [], k, v => [(k, v)]
  | (k0, v0) :: rest, k, v =>
    if k0 = k then (k0, v) :: rest else (k0, v0) :: setParam rest k v

/-- Digit-run accumulator for Python `int()`, honouring the rule that an
underscore must stand between two digits. -/
def intDigitsGo (acc : Nat) : List Char → Option Nat
  | [] => some acc
  | '_' :: c :: rest =>
    if isDigitChar c then intDigitsGo (acc * 10 + digitVal c) rest else none
  | c :: rest =>
    if isDigitChar c then intDigitsGo (acc * 10 + digitVal c) rest else none

/-- Unsigned digit body of a Python integer literal: at least one digit,
underscores only between digits. -/
def parseIntBody : List Char → Option Nat
  | [] => none
  | c :: rest => if isDigitChar c then intDigitsGo (digitVal c) rest else none

/-- Model of Python `int(s)` for strings: ASCII whitespace stripped at both
ends, an optional single sign, then a digit run; `None` models the
`ValueError` on any other shape.  (Unicode digits and unicode-only
whitespace are outside the modelled subset.) -/
def pyParseInt (s : String) : Option Int :=
  let cs := ((s.data.dropWhile pyIsSpace).reverse.dropWhile pyIsSpace).reverse
  match cs with
  | '+' :: rest => (parseIntBody rest).map (fun n => (n : Int))
  | '-' :: rest => (parseIntBody rest).map (fun n => -(n : Int))
  | rest => (parseIntBody rest).map (fun n => (n : Int))

/-- Model of `FHIRSearchParameters._parse_count` (src/main.py 141-149):
parse failure yields `None` (parameter treated as absent), a parsed negative
value is clamped to `0`. -/
def parse_count : Option String → Option Int
  | none => none
  | some s =>
    match pyParseInt s with
    | some v => some (max 0 v)
    | none => none

/-- Model of `FHIRSearchParameters._parse_format` (src/main.py 151-164). -/
def parse_format : Option String → String
  | none => "json"
  | some f =>
    let fl := strLower f
    if fl = "json" ∨ fl = "application/json" ∨ fl = "application/fhir+json" then "json"
    else if fl = "html" ∨ fl = "text/html" then "html"
    else "json"

/-! ### Datetimes (`datetime.fromisoformat`) -/

/-- A parsed Python `datetime`: calendar fields plus an optional UTC offset
in minutes (`none` models a naive datetime). -/
structure PyDateTime where
  year : Nat
  month : Nat
  day : Nat
  hour : Nat
  minute : Nat
  second : Nat
  offset : Option Int
deriving DecidableEq

/-- Exactly `n` leading decimal digits, accumulated into a number. -/
def parseNDigitsAux (acc : Nat) : Nat → List Char → Option (Nat × List Char)
  | 0, cs => some (acc, cs)
  | n + 1, [] => (fun _ => none) n
  | n + 1, c :: rest =>
    if isDigitChar c then parseNDigitsAux (acc * 10 + digitVal c) n rest else none

/-- Exactly `n` leading decimal digits of a character list. -/
def parseNDigits (n : Nat) (cs : List Char) : Option (Nat × List Char) :=
  parseNDigitsAux 0 n cs

/-- Consumes one expected character. -/
def expectChar (c : Char) : List Char → Option (List Char)
  | [] => none
  | x :: rest => if x = c then some rest else none

/-- Gregorian leap-year rule. -/
def isLeapYear (y : Nat) : Bool := (y % 4 = 0 ∧ y % 100 ≠ 0) ∨ y % 400 = 0

/-- Days in a month of the proleptic Gregorian calendar. -/
def daysInMonth (y m : Nat) : Nat :=
  if m = 2 then (if isLeapYear y then 29 else 28)
  else if m = 4 ∨ m = 6 ∨ m = 9 ∨ m = 11 then 30
  else 31

/-- Model of `datetime.fromisoformat` on the subset exercised by the data:
`YYYY-MM-DD`, optionally a single separator character followed by
`HH:MM:SS`, optionally a `+HH:MM` / `-HH:MM` offset.  Field ranges are
validated as Python does; fractional seconds and hour-only or minute-only
times are outside the modelled subset (they fail the parse). -/
def fromisoformat (s : String) : Option PyDateTime := do
  let (y, cs) ← parseNDigits 4 s.data
  let cs ← expectChar '-' cs
  let (mo, cs) ← parseNDigits 2 cs
  let cs ← expectChar '-' cs
  let (d, cs) ← parseNDigits 2 cs
  if 1 ≤ y ∧ 1 ≤ mo ∧ mo ≤ 12 ∧ 1 ≤ d ∧ d ≤ daysInMonth y mo then
    match cs with
    | [] => some ⟨y, mo, d, 0, 0, 0, none⟩
    | _ :: cs1 => do
      let (hh, cs2) ← parseNDigits 2 cs1
      let cs3 ← expectChar ':' cs2
      let (mi, cs4) ← parseNDigits 2 cs3
      let cs5 ← expectChar ':' cs4
      let (ss, cs6) ← parseNDigits 2 cs5
      if hh ≤ 23 ∧ mi ≤ 59 ∧ ss ≤ 59 then
        match cs6 with
        | [] => some ⟨y, mo, d, hh, mi, ss, none⟩
        | sign :: cs7 =>
          if sign = '+' ∨ sign = '-' then do
            let (oh, cs8) ← parseNDigits 2 cs7
            let cs9 ← expectChar ':' cs8
            let (om, cs10) ← parseNDigits 2 cs9
            if cs10 = [] ∧ oh ≤ 23 ∧ om ≤ 59 then
              let mins : Int := (oh : Int) * 60 + (om : Int)
              some ⟨y, mo, d, hh, mi, ss, some (if sign = '-' then -mins else mins)⟩
            else none
          else none
      else none
  else none

/-- Day number of a proleptic Gregorian date relative to 1970-01-01
(the standard era/year-of-era computation). -/
def daysFromCivil (y m d : Nat) : Int :=
  let yAdj : Int := if m ≤ 2 then (y : Int) - 1 else (y : Int)
  let era : Int := yAdj / 400
  let yoe : Int := yAdj - era * 400
  let mp : Int := if m ≤ 2 then (m : Int) + 9 else (m : Int) - 3
  let doy : Int := (153 * mp + 2) / 5 + (d : Int) - 1
  let doe : Int := yoe * 365 + yoe / 4 - yoe / 100 + doy
  era * 146097 + doe - 719468

/-- Timeline position of a datetime in seconds.  An aware datetime is
placed at its UTC instant; a naive one at its wall-clock reading (offset
zero).  Python orders two aware or two naive datetimes exactly this way and
raises `TypeError` on a mixed comparison — theorems about the since-clause
carry a same-awareness hypothesis on the compared values. -/
def instantSeconds (dt : PyDateTime) : Int :=
  daysFromCivil dt.year dt.month dt.day * 86400
    + ((dt.hour * 3600 + dt.minute * 60 + dt.second : Nat) : Int)
    - dt.offset.getD 0 * 60

/-- Python `a < b` on two datetimes of equal awareness. -/
def pyDateTimeLt (a b : PyDateTime) : Bool :=
  instantSeconds a < instantSeconds b

/-- The `'Z'`-suffix normalization applied by the source before
`fromisoformat`: a string ending in `'Z'` has every `'Z'` replaced by
`'+00:00'` (Python `str.replace` replaces all occurrences). -/
def znormZ (s : String) : String :=
  if strEndsWith s "Z" then strReplace s "Z" "+00:00" else s

/-- Model of `FHIRSearchParameters._parse_since` (src/main.py 166-178): `'Z'`
normalization then `fromisoformat`; a parse failure drops the parameter
(`None`) instead of erroring the request. -/
def parse_since : Option String → Option PyDateTime
  | none => none
  | some s => fromisoformat (znormZ s)

/-- The parsed search parameters (`FHIRSearchParameters.__init__`,
src/main.py 133-139): the raw mapping is retained alongside the parsed
`_id`, `_count`, `_format`, `_since` and `_summary` values. -/
structure FHIRSearchParameters where
  params : Params
  id_search : Option String
  count : Option Int
  format : String
  since : Option PyDateTime
  summary : Option String

/-- Constructs `FHIRSearchParameters` from the raw query parameters. -/
def ofParams (p : Params) : FHIRSearchParameters :=
  ⟨p, getParam p "_id", parse_count (getParam p "_count"),
    parse_format (getParam p "_format"), parse_since (getParam p "_since"),
    getParam p "_summary"⟩

/-- Model of `FHIRSearchParameters.get_count` (src/main.py 200-204): the
caller-supplied default for an absent `_count`, otherwise the parsed value
capped at the caller's ceiling. -/
def FHIRSearchParameters.get_count (sp : FHIRSearchParameters)
    (default maxLimit : Int) : Int :=
  match sp.count with
  | none => default
  | some c => min c maxLimit

/-! ## Predicate compilation (`create_search_filter`, src/main.py 206-427) -/

/-- Python `value == s` where `value` came from `dict.get` (so may be `None`
or any JSON value) and `s` is a `str`: true exactly for an equal string. -/
def pyEqJsonStr (o : Option Json) (s : String) : Bool :=
  match o with
  | some (.jstr t) => t = s
  | _ => false

/-- Python `resource.get(key, [])` on a field expected to hold a list.  A
present non-list value, which Python would go on to crash on, is totalized
to the empty list. -/
def jGetList (r : Json) (k : String) : List Json :=
  match jget r k with
  | some (.jarr xs) => xs
  | _ => []

/-- Python `name_obj.get('family', '')`.  A present non-string value (which
Python would crash lowering) is totalized to the empty string. -/
def familyStr (o : Json) : String :=
  match jget o "family" with
  | some (.jstr s) => s
  | _ => ""

/-- One entry of a `given` list, lowered and tested for containment of the
query substring; a non-string entry (Python crash) is totalized to a
non-match. -/
def givenContains (g : Json) (np : String) : Bool :=
  match g with
  | .jstr s => strContains (strLower s) np
  | _ => false

/-- Model of `_patient_search_filter` (src/main.py 268-314): case-insensitive
substring search over given and family names, and exact identifier matching
with the compound `system|value` form. -/
def patient_search_filter (sp : FHIRSearchParameters) (r : Json) : Bool :=
  let nameOk :=
    match getParam sp.params "name" with
    | none => true
    | some np0 =>
      let np := strLower np0
      (jGetList r "name").any (fun o =>
        (jGetList o "given").any (fun g => givenContains g np)
          || strContains (strLower (familyStr o)) np)
  if !nameOk then false
  else
    match getParam sp.params "identifier" with
    | none => true
    | some ip =>
      (jGetList r "identifier").any (fun ident =>
        pyEqJsonStr (jget ident "value") ip
          || (strContains ip "|" &&
              (let sv := splitOncePipe ip
               pyEqJsonStr (jget ident "system") sv.1
                 && pyEqJsonStr (jget ident "value") sv.2)))

/-- Python `resource.get('subject', {}).get('reference', '')`.  A present
non-dict `subject` or non-string `reference` (Python crash) is totalized to
the empty string. -/
def subjectRefStr (r : Json) : String :=
  match jget r "subject" with
  | some (.jobj fields) =>
    match lookupField fields "reference" with
    | some (.jstr s) => s
    | _ => ""
  | _ => ""

/-- The uniform subject/patient reference clause shared verbatim by the
per-type filters (src/main.py 316-427): the query value may be a bare id or
a `Type/id` reference, only the trailing id segment is compared, and the
record matches when its own subject reference ends with `/<id>`. -/
def subject_clause (sp : FHIRSearchParameters) (r : Json) : Bool :=
  let subj := pyOr (getParam sp.params "subject") (getParam sp.params "patient")
  if truthyS subj then
    let sv := subj.getD ""
    let pid := if strContains sv "/" then lastSlashSeg sv else sv
    strEndsWith (subjectRefStr r) ("/" ++ pid)
  else true

/-- Python `cat.get('coding', [{}])[0].get('code')`: the code of the first
coding entry; a missing `coding` key defaults to `[{}]` whose first entry
has no code (`None`).  A present empty or non-list `coding` (Python
`IndexError`) is totalized to `None`, which never matches. -/
def categoryHeadCode (cat : Json) : Option Json :=
  match jget cat "coding" with
  | some (.jarr (c0 :: _)) => jget c0 "code"
  | _ => none

/-- The category clause of `_observation_search_filter` (src/main.py
327-336): token equality against the first coding entry of any category. -/
def category_clause (sp : FHIRSearchParameters) (r : Json) : Bool :=
  match getParam sp.params "category" with
  | none => true
  | some cp => (jGetList r "category").any (fun cat => pyEqJsonStr (categoryHeadCode cat) cp)

/-- Model of `_observation_search_filter` (src/main.py 316-338). -/
def observation_search_filter (sp : FHIRSearchParameters) (r : Json) : Bool :=
  subject_clause sp r && category_clause sp r

/-- Model of `_encounter_search_filter` (src/main.py 340-350); its body is
the shared subject/patient clause. -/
def encounter_search_filter (sp : FHIRSearchParameters) (r : Json) : Bool :=
  subject_clause sp r

/-- Model of `_condition_search_filter` (src/main.py 352-361). -/
def condition_search_filter (sp : FHIRSearchParameters) (r : Json) : Bool :=
  subject_clause sp r

/-- Model of `_procedure_search_filter` (src/main.py 363-372). -/
def procedure_search_filter (sp : FHIRSearchParameters) (r : Json) : Bool :=
  subject_clause sp r

/-- Model of `_medication_request_search_filter` (src/main.py 374-383). -/
def medication_request_search_filter (sp : FHIRSearchParameters) (r : Json) : Bool :=
  subject_clause sp r

/-- Model of `_medication_administration_search_filter` (src/main.py 385-394). -/
def medication_administration_search_filter (sp : FHIRSearchParameters) (r : Json) : Bool :=
  subject_clause sp r

/-- Model of `_medication_dispense_search_filter` (src/main.py 396-405). -/
def medication_dispense_search_filter (sp : FHIRSearchParameters) (r : Json) : Bool :=
  subject_clause sp r

/-- Model of `_medication_statement_search_filter` (src/main.py 407-416). -/
def medication_statement_search_filter (sp : FHIRSearchParameters) (r : Json) : Bool :=
  subject_clause sp r

/-- Model of `_specimen_search_filter` (src/main.py 418-427). -/
def specimen_search_filter (sp : FHIRSearchParameters) (r : Json) : Bool :=
  subject_clause sp r

/-- Model of `_has_resource_params` (src/main.py 256-266). -/
def has_resource_params (rt : String) (p : Params) : Bool :=
  if rt = "Patient" then hasKey p "name" || hasKey p "identifier"
  else if rt = "Observation" then
    hasKey p "subject" || hasKey p "patient" || hasKey p "category"
  else if rt = "Encounter" then hasKey p "subject" || hasKey p "patient"
  else if rt = "Condition" ∨ rt = "Procedure" ∨ rt = "MedicationRequest"
      ∨ rt = "MedicationAdministration" ∨ rt = "MedicationDispense"
      ∨ rt = "MedicationStatement" ∨ rt = "Specimen" then
    hasKey p "subject" || hasKey p "patient"
  else false

/-- Python `resource.get('meta', {}).get('lastUpdated')`.  A present
non-dict `meta` (Python crash) is totalized to a missing value. -/
def metaLastUpdated (r : Json) : Option Json :=
  match jget r "meta" with
  | some (.jobj fields) => lookupField fields "lastUpdated"
  | _ => none

/-- The `_since` clause of the compiled filter (src/main.py 215-227): true
("keep") unless the record's `meta.lastUpdated` is a truthy string that
parses (after `'Z'` normalization) to a datetime strictly earlier than
`since`; a missing or unparseable timestamp keeps the record.  A non-string
truthy `lastUpdated` (Python crash) is totalized to "keep"; the mixed
aware/naive comparison (Python `TypeError`) is totalized through
`instantSeconds`. -/
def sinceKeeps (since : PyDateTime) (r : Json) : Bool :=
  match metaLastUpdated r with
  | some (.jstr s) =>
    if s ≠ "" then
      match fromisoformat (znormZ s) with
      | some rd => !(pyDateTimeLt rd since)
      | none => true
    else true
  | _ => true

/-- The per-type dispatch at the tail of the compiled filter
(src/main.py 229-252); an unlisted type applies no further filter. -/
def resource_type_filter (rt : String) (sp : FHIRSearchParameters) (r : Json) : Bool :=
  if rt = "Patient" then patient_search_filter sp r
  else if rt = "Observation" then observation_search_filter sp r
  else if rt = "Encounter" then encounter_search_filter sp r
  else if rt = "Condition" then condition_search_filter sp r
  else if rt = "Procedure" then procedure_search_filter sp r
  else if rt = "MedicationRequest" then medication_request_search_filter sp r
  else if rt = "MedicationAdministration" then medication_administration_search_filter sp r
  else if rt = "MedicationDispense" then medication_dispense_search_filter sp r
  else if rt = "MedicationStatement" then medication_statement_search_filter sp r
  else if rt = "Specimen" then specimen_search_filter sp r
  else true

/-- The compiled predicate body (`search_filter` inside
`create_search_filter`, src/main.py 209-252): a truthy `_id` short-circuits
to id equality, then the `_since` clause, then the per-type clauses. -/
def search_filter (rt : String) (sp : FHIRSearchParameters) (r : Json) : Bool :=
  if truthyS sp.id_search then pyEqJsonStr (jget r "id") (sp.id_search.getD "")
  else
    match sp.since with
    | some dt => if sinceKeeps dt r then resource_type_filter rt sp r else false
    | none => resource_type_filter rt sp r

/-- Model of `create_search_filter` (src/main.py 206-254): the compiled
predicate is returned only when a truthy `_id`, a parsed `_since`, or a
recognised type-specific parameter is present; otherwise `None` signals the
unfiltered fast path. -/
def create_search_filter (rt : String) (sp : FHIRSearchParameters) :
    Option (Json → Bool) :=
  if truthyS sp.id_search || sp.since.isSome || has_resource_params rt sp.params then
    some (search_filter rt sp)
  else none

/-! ## The record store (src/main.py 80-97, 100-124, 429-558) -/

/-- The on-disk state: a file's non-existence is `none`, its content a list
of lines (without trailing newlines; the line-based processing of the
source is insensitive to them). -/
abbrev FS := String → Option (List String)

/-- The configured data directory (src/main.py 35). -/
def data_dir : String := "data/mimic-iv-clinical-database-demo-on-fhir-2.1.0/fhir"

/-- `os.path.join(data_dir, filename)` for the relative names in use. -/
def pathOf (fn : String) : String := data_dir ++ "/" ++ fn

/-- Model of the `FILE_MAPPINGS` table (src/main.py 100-124). -/
def FILE_MAPPINGS (rt : String) : Option (List String) :=
  if rt = "Patient" then some ["MimicPatient.ndjson"]
  else if rt = "Organization" then some ["MimicOrganization.ndjson"]
  else if rt = "Location" then some ["MimicLocation.ndjson"]
  else if rt = "Encounter" then
    some ["MimicEncounter.ndjson", "MimicEncounterED.ndjson", "MimicEncounterICU.ndjson"]
  else if rt = "Condition" then
    some ["MimicCondition.ndjson", "MimicConditionED.ndjson"]
  else if rt = "Observation" then
    some ["MimicObservationLabevents.ndjson", "MimicObservationChartevents.ndjson",
      "MimicObservationDatetimeevents.ndjson", "MimicObservationOutputevents.ndjson",
      "MimicObservationED.ndjson", "MimicObservationVitalSignsED.ndjson",
      "MimicObservationMicroTest.ndjson", "MimicObservationMicroOrg.ndjson",
      "MimicObservationMicroSusc.ndjson"]
  else if rt = "Procedure" then
    some ["MimicProcedure.ndjson", "MimicProcedureED.ndjson", "MimicProcedureICU.ndjson"]
  else if rt = "Medication" then
    some ["MimicMedication.ndjson", "MimicMedicationMix.ndjson"]
  else if rt = "MedicationRequest" then some ["MimicMedicationRequest.ndjson"]
  else if rt = "MedicationAdministration" then
    some ["MimicMedicationAdministration.ndjson", "MimicMedicationAdministrationICU.ndjson"]
  else if rt = "MedicationDispense" then
    some ["MimicMedicationDispense.ndjson", "MimicMedicationDispenseED.ndjson"]
  else if rt = "MedicationStatement" then some ["MimicMedicationStatementED.ndjson"]
  else if rt = "Specimen" then
    some ["MimicSpecimen.ndjson", "MimicSpecimenLab.ndjson"]
  else none

/-- Python `line.strip()` falsiness: every character is whitespace. -/
def isBlankLine (s : String) : Bool := s.data.all pyIsSpace

/-- Python `filter_func is None or filter_func(resource)`. -/
def applyFilter (f : Option (Json → Bool)) (r : Json) : Bool :=
  match f with
  | none => true
  | some g => g r

/-- The per-line outcome of the scan loops: the parsed record when the line
is non-blank, parses, and passes the filter; `none` otherwise (blank or
malformed lines are skipped silently). -/
def lineMatches (f : Option (Json → Bool)) (l : String) : Option Json :=
  if isBlankLine l then none
  else
    match json_loads l with
    | some r => if applyFilter f r then some r else none
    | none => none

/-- The full match list of a sequence of lines, in line order. -/
def matchesOf (f : Option (Json → Bool)) : List String → List Json
  | [] => []
  | l :: ls =>
    match lineMatches f l with
    | some r => r :: matchesOf f ls
    | none => matchesOf f ls

/-- Python `limit and len(results) >= limit` (the loop-break test of
`read_ndjson_file` and of the page loop): false for an absent or zero
limit, otherwise the length comparison. -/
def limCheck (limit : Option Int) (n : Nat) : Bool :=
  match limit with
  | none => false
  | some L => L ≠ 0 && L ≤ (n : Int)

/-- The line loop of `read_ndjson_file` (src/main.py 86-96), carrying the
accumulated results. -/
def readLoop (f : Option (Json → Bool)) (limit : Option Int) :
    List String → List Json → List Json
  | [], acc => acc
  | l :: ls, acc =>
    if limCheck limit acc.length then acc
    else
      match lineMatches f l with
      | some r => readLoop f limit ls (acc ++ [r])
      | none => readLoop f limit ls acc

/-- Model of `read_ndjson_file` (src/main.py 80-97): a missing file yields
no results and no error; otherwise the lines are scanned with the optional
filter and optional limit. -/
def read_ndjson_file (fs : FS) (filepath : String) (f : Option (Json → Bool))
    (limit : Option Int) : List Json :=
  match fs filepath with
  | none => []
  | some lines => readLoop f limit lines []

/-- Contribution of one line to the full-parse count
(src/main.py 507-517): an unfiltered count counts every non-blank line
without parsing it; a filtered count parses and skips malformed lines. -/
def lineCountVal (f : Option (Json → Bool)) (l : String) : Nat :=
  if isBlankLine l then 0
  else
    match f with
    | none => 1
    | some g =>
      match json_loads l with
      | some r => if g r then 1 else 0
      | none => 0

/-- Sum of the per-line counts over a file's lines. -/
def countLinesF (f : Option (Json → Bool)) : List String → Nat
  | [] => 0
  | l :: ls => lineCountVal f l + countLinesF f ls

/-- Sums a per-filename contribution over a mapping's file list. -/
def sumWith (f : String → Nat) : List String → Nat
  | [] => 0
  | fn :: fns => f fn + sumWith f fns

/-- Contribution of one configured file to the full-parse count: zero for a
file missing on disk. -/
def fileCountF (fs : FS) (f : Option (Json → Bool)) (fn : String) : Nat :=
  match fs (pathOf fn) with
  | some lines => countLinesF f lines
  | none => 0

/-- Model of `count_fhir_resources_json_parse` (src/main.py 493-518), the
full-parse counting strategy. -/
def count_fhir_resources_json_parse (fs : FS) (rt : String)
    (f : Option (Json → Bool)) : Nat :=
  match FILE_MAPPINGS rt with
  | none => 0
  | some files => sumWith (fileCountF fs f) files

/-- Model of `count_fhir_resources` (src/main.py 520-523).  Its comment and
docstring announce a redirect to the optimized counter, but its body invokes
`count_fhir_resources_json_parse`. -/
def count_fhir_resources (fs : FS) (rt : String) (f : Option (Json → Bool)) : Nat :=
  count_fhir_resources_json_parse fs rt f

/-- Model of `count_lines_with_string` (src/main.py 429-436): raw text scan
counting the lines containing the literal substring.  The source opens the
file unconditionally (callers guard existence); a missing file is totalized
to zero. -/
def count_lines_with_string (fs : FS) (filepath s : String) : Nat :=
  match fs filepath with
  | none => 0
  | some lines => (lines.filter (fun l => strContains l s)).length

/-- The cached-line-count lookup of the unfiltered tier (src/main.py
449-462): the startup cache, falling back to a fresh non-blank line count
of an existing file. -/
def cachedLineCount (fs : FS) (lineCounts : String → Option Nat) (fn : String) : Nat :=
  match lineCounts fn with
  | some n => n
  | none =>
    match fs (pathOf fn) with
    | some lines => (lines.filter (fun l => !isBlankLine l)).length
    | none => 0

/-- The serialized-reference substring variants of the text pre-filter tier
(src/main.py 471-476). -/
def search_strings (pid : String) : List String :=
  ["\"reference\":\"Patient/" ++ pid ++ "\"",
   "\"reference\": \"Patient/" ++ pid ++ "\"",
   "Patient/" ++ pid]

/-- Per-file contribution of the text pre-filter tier (src/main.py
482-487): the count of the first variant that matches anything. -/
def firstVariantCount (fs : FS) (fp : String) : List String → Nat
  | [] => 0
  | v :: vs =>
    let c := count_lines_with_string fs fp v
    if c > 0 then c else firstVariantCount fs fp vs

/-- Model of `count_fhir_resources_optimized` (src/main.py 438-491): cached
line counts for the unfiltered case, the text pre-filter for a lone
subject/patient parameter, and the full-parse strategy otherwise.
`lineCounts` is the process-wide `file_line_counts` cache. -/
def count_fhir_resources_optimized (fs : FS) (lineCounts : String → Option Nat)
    (rt : String) (sp : Option FHIRSearchParameters)
    (filt : Option (Json → Bool)) : Nat :=
  match FILE_MAPPINGS rt with
  | none => 0
  | some files =>
    match filt with
    | none => sumWith (cachedLineCount fs lineCounts) files
    | some f =>
      match sp with
      | some sp' =>
        let subj := pyOr (getParam sp'.params "subject") (getParam sp'.params "patient")
        if truthyS subj ∧ sp'.params.length = 1 then
          let sv := subj.getD ""
          let pid := if strContains sv "/" then lastSlashSeg sv else sv
          sumWith (fun fn =>
            if (fs (pathOf fn)).isSome then
              firstVariantCount fs (pathOf fn) (search_strings pid)
            else 0) files
        else count_fhir_resources_json_parse fs rt (some f)
      | none => count_fhir_resources_json_parse fs rt (some f)

/-- Python `count - len(results) if count else None` (src/main.py 548). -/
def perFileLimit (count : Option Int) (n : Nat) : Option Int :=
  match count with
  | some c => if c ≠ 0 then some (c - (n : Int)) else none
  | none => none

/-- The file loop of `get_fhir_resources_page` (src/main.py 544-549). -/
def pageLoop (fs : FS) (f : Option (Json → Bool)) (count : Option Int) :
    List String → List Json → List Json
  | [], acc => acc
  | fn :: fns, acc =>
    if limCheck count acc.length then acc
    else
      pageLoop fs f count fns
        (acc ++ read_ndjson_file fs (pathOf fn) f (perFileLimit count acc.length))

/-- Python list slicing `l[:c]` for an integer bound (negative bounds drop
from the end). -/
def pySliceTo (l : List Json) (c : Int) : List Json :=
  if 0 ≤ c then l.take c.toNat else l.take (l.length - (-c).toNat)

/-- Model of `get_fhir_resources_page` (src/main.py 525-558), at a miss of
the page cache (the cache consult for filterless queries returns the same
value that the scan produces, so the model elides it): the files are
streamed in configured order, stopping early once `count` truthy matches
are collected, and the final `results[:count] if count else results`
truncation is applied. -/
def get_fhir_resources_page (fs : FS) (rt : String) (f : Option (Json → Bool))
    (count : Option Int) : List Json :=
  match FILE_MAPPINGS rt with
  | none => []
  | some files =>
    let results := pageLoop fs f count files []
    match count with
    | some c => if c ≠ 0 then pySliceTo results c else results
    | none => results

/-! ## Search and read operations (src/main.py 593-676, 861-935) -/

/-- The observable content of a search response: the reported total and the
page entries (`Bundle.total` and `Bundle.entry` of `create_fhir_bundle`,
src/main.py 560-591; the envelope decoration around them is invariant
per-entry bookkeeping). -/
structure SearchBundle where
  total : Nat
  entries : List Json

/-- Model of `fhir_search` (src/main.py 593-676) at a miss of the bundle
cache: `_summary=count` answers with the optimized counter and an empty
page; otherwise the total comes from `count_fhir_resources` and the page
from `get_fhir_resources_page` at the resolved limit
`get_count(default=100, max_limit=1000)`.  The `_format=html` rendering
wraps the same bundle and is not modelled separately. -/
def fhir_search (fs : FS) (lineCounts : String → Option Nat) (rt : String)
    (p : Params) : SearchBundle :=
  let sp := ofParams p
  if sp.summary = some "count" then
    ⟨count_fhir_resources_optimized fs lineCounts rt (some sp)
      (create_search_filter rt sp), []⟩
  else
    let filt := create_search_filter rt sp
    let total := count_fhir_resources fs rt filt
    let cnt := sp.get_count 100 1000
    ⟨total, get_fhir_resources_page fs rt filt (some cnt)⟩

/-- Model of the search endpoint `fhir_resource_search` (src/main.py
861-881): `404` exactly for a record type outside `FILE_MAPPINGS`,
otherwise the search bundle. -/
def fhir_resource_search (fs : FS) (lineCounts : String → Option Nat)
    (rt : String) (p : Params) : Except Nat SearchBundle :=
  if (FILE_MAPPINGS rt).isSome then .ok (fhir_search fs lineCounts rt p)
  else .error 404

/-- The per-file loop of the read endpoint (src/main.py 904-910): the first
file yielding any result wins. -/
def readFirstFile (fs : FS) (filt : Option (Json → Bool)) :
    List String → List Json
  | [] => []
  | fn :: fns =>
    let res := read_ndjson_file fs (pathOf fn) filt (some 1)
    if res.isEmpty then readFirstFile fs filt fns else res

/-- Model of the read endpoint `fhir_resource_read` (src/main.py 884-935) at
a miss of the resource cache: `404` for a record type outside
`FILE_MAPPINGS`, otherwise an `_id` search over the type's files with limit
`1`, answering `404` when nothing is found.  The ETag / `304` handling past
this point does not affect the found-or-not outcome modelled here. -/
def fhir_resource_read (fs : FS) (rt rid : String) : Except Nat Json :=
  match FILE_MAPPINGS rt with
  | none => .error 404
  | some files =>
    let sp := ofParams [("_id", rid)]
    let filt := create_search_filter rt sp
    match readFirstFile fs filt files with
    | [] => .error 404
    | r :: _ => .ok r

/-! ## Derived views of the store used by the verification -/

/-- The match list contributed by one configured file: empty for a file
missing on disk. -/
def fileMatches (fs : FS) (f : Option (Json → Bool)) (fn : String) : List Json :=
  match fs (pathOf fn) with
  | some lines => matchesOf f lines
  | none => []

/-- Concatenation of the match lists of a file list, in configured order. -/
def concatMatches (fs : FS) (f : Option (Json → Bool)) : List String → List Json
  | [] => []
  | fn :: fns => fileMatches fs f fn ++ concatMatches fs f fns

/-- The parseable corpus of a record type: every record that parses from a
non-blank line of the type's files, in file order. -/
def corpusOf (fs : FS) (rt : String) : List Json :=
  match FILE_MAPPINGS rt with
  | none => []
  | some files => concatMatches fs none files

/-! ## Concrete example data for the claims -/

/-- A parseable Patient line. -/
def exLine1 : String := "\x7b\"resourceType\":\"Patient\",\"id\":\"p1\"\x7d"

/-- A malformed (unparseable) line. -/
def exLineBad : String := "\x7bnot valid json"

/-- A second parseable Patient line. -/
def exLine2 : String := "\x7b\"resourceType\":\"Patient\",\"id\":\"p2\"\x7d"

/-- The parsed record of `exLine1`. -/
def exRec1 : Json := .jobj [("resourceType", .jstr "Patient"), ("id", .jstr "p1")]

/-- The parsed record of `exLine2`. -/
def exRec2 : Json := .jobj [("resourceType", .jstr "Patient"), ("id", .jstr "p2")]

/-- A store whose Patient file holds three non-blank JSON lines, two valid
and one malformed (the example of the specification). -/
def exC1fs : FS := fun p =>
  if p = pathOf "MimicPatient.ndjson" then some [exLine1, exLineBad, exLine2]
  else none

/-- An Observation line whose subject reference is `Patient/abc1234`. -/
def exC3Line : String :=
  "\x7b\"id\":\"o1\",\"subject\":\x7b\"reference\":\"Patient/abc1234\"\x7d\x7d"

/-- An Observation line whose subject reference is `Patient/abc123`. -/
def exC3LineGood : String :=
  "\x7b\"id\":\"o2\",\"subject\":\x7b\"reference\":\"Patient/abc123\"\x7d\x7d"

/-- The parsed record of `exC3Line`. -/
def exC3Rec : Json :=
  .jobj [("id", .jstr "o1"),
    ("subject", .jobj [("reference", .jstr "Patient/abc1234")])]

/-- The parsed record of `exC3LineGood`. -/
def exC3RecGood : Json :=
  .jobj [("id", .jstr "o2"),
    ("subject", .jobj [("reference", .jstr "Patient/abc123")])]

/-- A store whose first Observation file holds only the `Patient/abc1234`
record. -/
def exC3fs : FS := fun p =>
  if p = pathOf "MimicObservationLabevents.ndjson" then some [exC3Line] else none

/-- The query whose only parameter is a subject filter for id `abc123`. -/
def spC3 : FHIRSearchParameters := ofParams [("subject", "abc123")]

/-- The parsed `_since` value of `2024-01-01T00:00:00Z`. -/
def exSinceDt : PyDateTime := ⟨2024, 1, 1, 0, 0, 0, some 0⟩

/-- A record last modified one second before `exSinceDt`. -/
def exRecOld : Json :=
  .jobj [("id", .jstr "r-old"),
    ("meta", .jobj [("lastUpdated", .jstr "2023-12-31T23:59:59Z")])]

/-- A record last modified one second after `exSinceDt`. -/
def exRecNew : Json :=
  .jobj [("id", .jstr "r-new"),
    ("meta", .jobj [("lastUpdated", .jstr "2024-01-01T00:00:01Z")])]

/-- Object fields written in one insertion order. -/
def exFieldsBA : List (String × Json) := [("b", .jnum 1), ("a", .jstr "x")]

/-- The same object fields written in the other insertion order. -/
def exFieldsAB : List (String × Json) := [("a", .jstr "x"), ("b", .jnum 1)]

/-- The fields of `exFieldsBA` with a single field's value changed. -/
def exFieldsBA' : List (String × Json) := [("b", .jnum 2), ("a", .jstr "x")]

/-- A line-count cache claiming 42 records for the Patient file. -/
def exLineCounts : String → Option Nat := fun fn =>
  if fn = "MimicPatient.ndjson" then some 42 else none

/-- A store with no files on disk. -/
def exEmptyFs : FS := fun _ => none

/-- An empty line-count cache (cold startup). -/
def noLineCounts : String → Option Nat := fun _ => none

/-- Shape guard for the since-clause model: the record's `meta` field, when
present, is an object.  Python crashes (`AttributeError`) on other shapes;
the model totalizes them, so theorems about the clause assume this guard. -/
def metaIsObj (r : Json) : Bool :=
  match jget r "meta" with
  | some (.jobj _) => true
  | some _ => false
  | none => true

/-- Shape guard: the record's `meta.lastUpdated`, when present, is a
string (Python crashes calling `endswith` on other truthy shapes). -/
def metaLuIsStr (r : Json) : Bool :=
  match metaLastUpdated r with
  | some (.jstr _) => true
  | some _ => false
  | none => true

/-- Awareness guard: a parsed record timestamp carries an offset exactly
when the since value does (Python raises `TypeError` comparing an aware
datetime with a naive one; the model's totalized order is only claimed on
same-awareness pairs). -/
def sinceCmpAware (since : PyDateTime) (r : Json) : Bool :=
  match metaLastUpdated r with
  | some (.jstr s) =>
    match fromisoformat (znormZ s) with
    | some rd => rd.offset.isSome == since.offset.isSome
    | none => true
  | _ => true

/-! ## Store lemmas -/

/-- Characterization of the early-break test for a present limit. -/
theorem limCheck_some_iff (L : Int) (n : Nat) :
    limCheck (some L) n = true ↔ (L ≠ 0 ∧ L ≤ (n : Int)) := by
  simp [limCheck]

/-- The early-break test fires for a nonzero limit not exceeding the
accumulated length. -/
theorem limCheck_true_of (L : Int) (n : Nat) (h1 : L ≠ 0) (h2 : L ≤ (n : Int)) :
    limCheck (some L) n = true :=
  (limCheck_some_iff L n).mpr ⟨h1, h2⟩

/-- The early-break test stays off below the limit (or at limit zero). -/
theorem limCheck_false_of (L : Int) (n : Nat) (h : (n : Int) < L ∨ L = 0) :
    limCheck (some L) n = false := by
  cases hb : limCheck (some L) n
  · rfl
  · exfalso
    have h2 := (limCheck_some_iff L n).mp hb
    omega

/-- An absent or zero limit never triggers the early break (Python
falsiness of `None` and `0`). -/
theorem limCheck_none_or_zero (limit : Option Int)
    (h : limit = none ∨ limit = some 0) (n : Nat) : limCheck limit n = false := by
  rcases h with h | h <;> subst h
  · rfl
  · exact limCheck_false_of 0 n (Or.inr rfl)

/-- Without an effective limit the read loop collects every match. -/
theorem readLoop_no_limit (f : Option (Json → Bool)) (limit : Option Int)
    (h : limit = none ∨ limit = some 0) :
    ∀ (lines : List String) (acc : List Json),
      readLoop f limit lines acc = acc ++ matchesOf f lines := by
  intro lines
  induction lines with
  | nil => intro acc; simp [readLoop, matchesOf]
  | cons l ls ih =>
    intro acc
    rw [readLoop, limCheck_none_or_zero limit h acc.length]
    simp only [Bool.false_eq_true, if_false, matchesOf]
    cases hm : lineMatches f l with
    | some r =>
      dsimp only
      rw [ih (acc ++ [r]), List.append_assoc]
      rfl
    | none => exact ih acc

/-- A negative limit stops the read loop immediately. -/
theorem readLoop_neg (f : Option (Json → Bool)) (L : Int) (hL : L < 0)
    (lines : List String) (acc : List Json) :
    readLoop f (some L) lines acc = acc := by
  cases lines with
  | nil => rfl
  | cons l ls =>
    rw [readLoop, limCheck_true_of L acc.length (by omega) (by omega)]
    simp

/-- With a positive limit the read loop collects matches up to the limit. -/
theorem readLoop_pos (f : Option (Json → Bool)) (L : Int) (hL : 1 ≤ L) :
    ∀ (lines : List String) (acc : List Json),
      readLoop f (some L) lines acc
        = acc ++ (matchesOf f lines).take (L.toNat - acc.length) := by
  intro lines
  induction lines with
  | nil => intro acc; simp [readLoop, matchesOf]
  | cons l ls ih =>
    intro acc
    by_cases hfull : L ≤ (acc.length : Int)
    · rw [readLoop, limCheck_true_of L acc.length (by omega) hfull]
      have htake : L.toNat - acc.length = 0 := by omega
      simp [htake]
    · rw [readLoop, limCheck_false_of L acc.length (by omega)]
      simp only [Bool.false_eq_true, if_false, matchesOf]
      cases hm : lineMatches f l with
      | some r =>
        dsimp only
        rw [ih (acc ++ [r])]
        have hsucc : L.toNat - acc.length = (L.toNat - (acc.length + 1)) + 1 := by
          omega
        simp only [List.length_append, List.length_cons, List.length_nil,
          Nat.zero_add, hsucc, List.take_succ_cons, List.append_assoc]
        rfl
      | none => exact ih acc

/-- A line that yields a match contributes one to the full-parse count. -/
theorem lineCountVal_pos (f : Option (Json → Bool)) (l : String) (r : Json)
    (hm : lineMatches f l = some r) : 1 ≤ lineCountVal f l := by
  unfold lineMatches at hm
  unfold lineCountVal
  by_cases hb : isBlankLine l
  · simp [hb] at hm
  · simp only [hb, Bool.false_eq_true, if_false] at hm ⊢
    cases hp : json_loads l with
    | none => rw [hp] at hm; cases hm
    | some r' =>
      rw [hp] at hm
      cases f with
      | none => simp
      | some g =>
        simp only [applyFilter] at hm
        by_cases hg : g r' = true
        · simp [hg]
        · simp [hg] at hm

/-- The match list is never longer than the full-parse count (an unfiltered
count also counts malformed non-blank lines). -/
theorem matchesOf_length_le (f : Option (Json → Bool)) :
    ∀ lines, (matchesOf f lines).length ≤ countLinesF f lines := by
  intro lines
  induction lines with
  | nil => simp [matchesOf, countLinesF]
  | cons l ls ih =>
    simp only [matchesOf, countLinesF]
    cases hm : lineMatches f l with
    | none => exact le_trans ih (Nat.le_add_left _ _)
    | some r =>
      have h1 := lineCountVal_pos f l r hm
      simp only [List.length_cons]
      omega

/-- With a present filter the full-parse count equals the number of
matches: both parse, both drop malformed lines. -/
theorem countLinesF_some_eq (g : Json → Bool) :
    ∀ lines, countLinesF (some g) lines = (matchesOf (some g) lines).length := by
  intro lines
  induction lines with
  | nil => rfl
  | cons l ls ih =>
    simp only [countLinesF, matchesOf, lineCountVal, lineMatches]
    by_cases hb : isBlankLine l
    · simp [hb, ih]
    · simp only [hb, Bool.false_eq_true, if_false]
      cases hp : json_loads l with
      | none => simpa using ih
      | some r =>
        simp only [applyFilter]
        by_cases hg : g r = true
        · simp [hg, ih, Nat.add_comm]
        · simp [hg, ih]

/-- The read loop grows the accumulator by at most the number of matches. -/
theorem readLoop_length_le (f : Option (Json → Bool)) (lim : Option Int) :
    ∀ (lines : List String) (acc : List Json),
      (readLoop f lim lines acc).length ≤ acc.length + (matchesOf f lines).length := by
  intro lines
  induction lines with
  | nil => intro acc; simp [readLoop, matchesOf]
  | cons l ls ih =>
    intro acc
    rw [readLoop]
    by_cases hc : limCheck lim acc.length = true
    · simp [hc]
    · simp only [Bool.not_eq_true] at hc
      simp only [hc, Bool.false_eq_true, if_false, matchesOf]
      cases hm : lineMatches f l with
      | some r =>
        have h1 := ih (acc ++ [r])
        simp only [List.length_append, List.length_cons, List.length_nil,
          Nat.zero_add] at h1 ⊢
        omega
      | none => exact le_trans (ih acc) (by simp)

/-- One file's page contribution is bounded by its full-parse count. -/
theorem read_ndjson_length_le_fileCount (fs : FS) (f : Option (Json → Bool))
    (lim : Option Int) (fn : String) :
    (read_ndjson_file fs (pathOf fn) f lim).length ≤ fileCountF fs f fn := by
  unfold read_ndjson_file fileCountF
  cases fs (pathOf fn) with
  | none => simp
  | some lines =>
    show (readLoop f lim lines []).length ≤ countLinesF f lines
    have h1 := readLoop_length_le f lim lines []
    have h2 := matchesOf_length_le f lines
    simp only [List.length_nil, Nat.zero_add] at h1
    omega

/-- The page loop grows the accumulator by at most the full-parse count of
the remaining files. -/
theorem pageLoop_length_le (fs : FS) (f : Option (Json → Bool)) (cnt : Option Int) :
    ∀ (files : List String) (acc : List Json),
      (pageLoop fs f cnt files acc).length ≤ acc.length + sumWith (fileCountF fs f) files := by
  intro files
  induction files with
  | nil => intro acc; simp [pageLoop, sumWith]
  | cons fn fns ih =>
    intro acc
    rw [pageLoop]
    by_cases hc : limCheck cnt acc.length = true
    · simp [hc, sumWith]
    · simp only [Bool.not_eq_true] at hc
      simp only [hc, Bool.false_eq_true, if_false, sumWith]
      have h1 := ih (acc ++ read_ndjson_file fs (pathOf fn) f (perFileLimit cnt acc.length))
      have h2 := read_ndjson_length_le_fileCount fs f (perFileLimit cnt acc.length) fn
      simp only [List.length_append] at h1
      omega

/-- A Python slice `l[:c]` never lengthens the list. -/
theorem pySliceTo_length_le (l : List Json) (c : Int) :
    (pySliceTo l c).length ≤ l.length := by
  unfold pySliceTo
  split <;> simp [List.length_take]

/-- The page of a query never exceeds the full-parse count of the same
type and predicate. -/
theorem page_length_le_count (fs : FS) (rt : String) (f : Option (Json → Bool))
    (cnt : Option Int) :
    (get_fhir_resources_page fs rt f cnt).length
      ≤ count_fhir_resources_json_parse fs rt f := by
  unfold get_fhir_resources_page count_fhir_resources_json_parse
  cases FILE_MAPPINGS rt with
  | none => simp
  | some files =>
    dsimp only
    have hb := pageLoop_length_le fs f cnt files []
    simp only [List.length_nil, Nat.zero_add] at hb
    cases cnt with
    | none => exact hb
    | some c =>
      dsimp only
      by_cases hc : c ≠ 0
      · rw [if_pos hc]
        exact le_trans (pySliceTo_length_le _ c) hb
      · rw [if_neg hc]
        exact hb

/-- With a positive resolved limit the final truncation bounds the page by
the limit. -/
theorem page_length_le_limit (fs : FS) (rt : String) (f : Option (Json → Bool))
    (L : Int) (hL : 1 ≤ L) :
    (get_fhir_resources_page fs rt f (some L)).length ≤ L.toNat := by
  unfold get_fhir_resources_page
  cases FILE_MAPPINGS rt with
  | none => simp
  | some files =>
    dsimp only
    have hne : L ≠ 0 := by omega
    rw [if_pos hne]
    unfold pySliceTo
    rw [if_pos (by omega : (0 : Int) ≤ L)]
    rw [List.length_take]
    exact Nat.min_le_left _ _

/-- Without a limit, one file's page contribution is its full match list. -/
theorem read_ndjson_no_limit (fs : FS) (f : Option (Json → Bool)) (fn : String) :
    read_ndjson_file fs (pathOf fn) f none = fileMatches fs f fn := by
  unfold read_ndjson_file fileMatches
  cases fs (pathOf fn) with
  | none => rfl
  | some lines => exact readLoop_no_limit f none (Or.inl rfl) lines []

/-- Without a limit the page loop concatenates every file's matches in
configured order. -/
theorem pageLoop_none_eq (fs : FS) (f : Option (Json → Bool)) :
    ∀ (files : List String) (acc : List Json),
      pageLoop fs f none files acc = acc ++ concatMatches fs f files := by
  intro files
  induction files with
  | nil => intro acc; simp [pageLoop, concatMatches]
  | cons fn fns ih =>
    intro acc
    rw [pageLoop, limCheck_none_or_zero none (Or.inl rfl) acc.length]
    simp only [Bool.false_eq_true, if_false, concatMatches]
    rw [show perFileLimit none acc.length = none from rfl, read_ndjson_no_limit,
      ih (acc ++ fileMatches fs f fn), List.append_assoc]

/-- One file's matches under a present filter are the filtered matches of
the unfiltered scan. -/
theorem matchesOf_some_eq_filter (g : Json → Bool) :
    ∀ lines, matchesOf (some g) lines = (matchesOf none lines).filter g := by
  intro lines
  induction lines with
  | nil => rfl
  | cons l ls ih =>
    simp only [matchesOf, lineMatches]
    by_cases hb : isBlankLine l
    · simp [hb, ih]
    · simp only [hb, Bool.false_eq_true, if_false]
      cases hp : json_loads l with
      | none => exact ih
      | some r =>
        dsimp only [applyFilter]
        by_cases hg : g r = true
        · simp [hg, ih, List.filter_cons_of_pos]
        · simp [hg, ih, List.filter_cons_of_neg]

/-- The filtered-count contribution of each file equals its match count. -/
theorem concatMatches_length_some (fs : FS) (g : Json → Bool) :
    ∀ files, (concatMatches fs (some g) files).length
      = sumWith (fileCountF fs (some g)) files := by
  intro files
  induction files with
  | nil => rfl
  | cons fn fns ih =>
    simp only [concatMatches, sumWith, List.length_append, ih]
    congr 1
    unfold fileMatches fileCountF
    cases fs (pathOf fn) with
    | none => rfl
    | some lines => exact (countLinesF_some_eq g lines).symm

/-- With a present predicate the full-parse count equals the length of the
unlimited page of the same type and predicate: a malformed line is excluded
from both consistently. -/
theorem count_some_eq_page_none_length (fs : FS) (rt : String) (g : Json → Bool) :
    count_fhir_resources_json_parse fs rt (some g)
      = (get_fhir_resources_page fs rt (some g) none).length := by
  unfold count_fhir_resources_json_parse get_fhir_resources_page
  cases FILE_MAPPINGS rt with
  | none => rfl
  | some files =>
    dsimp only
    rw [pageLoop_none_eq fs (some g) files []]
    simp only [List.nil_append]
    exact (concatMatches_length_some fs g files).symm

/-- Concatenated matches under a present filter are the filtered corpus. -/
theorem concatMatches_some_eq_filter (fs : FS) (g : Json → Bool) :
    ∀ files, concatMatches fs (some g) files
      = (concatMatches fs none files).filter g := by
  intro files
  induction files with
  | nil => rfl
  | cons fn fns ih =>
    simp only [concatMatches, List.filter_append, ih]
    congr 1
    unfold fileMatches
    cases fs (pathOf fn) with
    | none => rfl
    | some lines => exact matchesOf_some_eq_filter g lines

/-- The filtered count of a record type counts the corpus records passing
the predicate. -/
theorem count_eq_corpus_filter (fs : FS) (rt : String) (g : Json → Bool) :
    count_fhir_resources_json_parse fs rt (some g)
      = ((corpusOf fs rt).filter g).length := by
  unfold count_fhir_resources_json_parse corpusOf
  cases FILE_MAPPINGS rt with
  | none => rfl
  | some files =>
    dsimp only
    rw [← concatMatches_some_eq_filter fs g files]
    exact (concatMatches_length_some fs g files).symm

/-- A list in which no two elements can both pass the predicate filters to
at most one element. -/
theorem filter_length_le_one {α : Type} (l : List α) (p : α → Bool)
    (h : l.Pairwise (fun a b => ¬(p a = true ∧ p b = true))) :
    (l.filter p).length ≤ 1 := by
  induction l with
  | nil => simp
  | cons a t ih =>
    rw [List.pairwise_cons] at h
    by_cases hp : p a = true
    · rw [List.filter_cons_of_pos hp]
      have ht : t.filter p = [] := by
        apply List.filter_eq_nil_iff.mpr
        intro b hb
        exact fun hpb => (h.1 b hb) ⟨hp, hpb⟩
      simp [ht]
    · rw [List.filter_cons_of_neg hp]
      exact ih h.2

/-- One file read with limit `1` yields the head of its match list. -/
theorem read_ndjson_one (fs : FS) (f : Option (Json → Bool)) (fn : String) :
    read_ndjson_file fs (pathOf fn) f (some 1) = (fileMatches fs f fn).take 1 := by
  unfold read_ndjson_file fileMatches
  cases fs (pathOf fn) with
  | none => rfl
  | some lines =>
    dsimp only
    rw [readLoop_pos f 1 (le_refl 1) lines []]
    simp

/-- The read endpoint's file loop finds nothing exactly when no configured
file has a match. -/
theorem readFirstFile_nil_iff (fs : FS) (f : Option (Json → Bool)) :
    ∀ files, readFirstFile fs f files = [] ↔ concatMatches fs f files = [] := by
  intro files
  induction files with
  | nil => simp [readFirstFile, concatMatches]
  | cons fn fns ih =>
    simp only [readFirstFile, concatMatches]
    rw [read_ndjson_one]
    cases hfm : fileMatches fs f fn with
    | nil => simpa [hfm] using ih
    | cons x xs => simp [hfm]

/-! ## Parameter and filter lemmas -/

/-- Projection of the retained raw parameters. -/
theorem ofParams_params (p : Params) : (ofParams p).params = p := rfl

/-- Projection of the parsed `_id`. -/
theorem ofParams_id_search (p : Params) :
    (ofParams p).id_search = getParam p "_id" := rfl

/-- Projection of the parsed `_count`. -/
theorem ofParams_count (p : Params) :
    (ofParams p).count = parse_count (getParam p "_count") := rfl

/-- Projection of the parsed `_since`. -/
theorem ofParams_since (p : Params) :
    (ofParams p).since = parse_since (getParam p "_since") := rfl

/-- Projection of the raw `_summary`. -/
theorem ofParams_summary (p : Params) :
    (ofParams p).summary = getParam p "_summary" := rfl

/-- A `dict` update changes exactly the written key. -/
theorem getParam_setParam (p : Params) (k v k' : String) :
    getParam (setParam p k v) k' = if k' = k then some v else getParam p k' := by
  induction p with
  | nil =>
    by_cases h : k' = k
    · simp [setParam, getParam, h]
    · have h' : ¬(k = k') := fun hh => h hh.symm
      simp [setParam, getParam, h, h']
  | cons hd tl ih =>
    obtain ⟨k0, v0⟩ := hd
    by_cases h0 : k0 = k
    · subst h0
      by_cases h1 : k0 = k'
      · subst h1
        simp [setParam, getParam]
      · have h1' : ¬(k' = k0) := fun hh => h1 hh.symm
        simp [setParam, getParam, h1, h1']
    · by_cases h1 : k0 = k'
      · subst h1
        simp [setParam, getParam, h0]
      · simp [setParam, getParam, h0, h1, ih]

/-- Updating `_count` leaves every other key unchanged. -/
theorem getParam_set_count_ne (p : Params) (v k : String) (hk : k ≠ "_count") :
    getParam (setParam p "_count" v) k = getParam p k := by
  rw [getParam_setParam, if_neg hk]

/-- Updating `_count` leaves `_id` unchanged. -/
theorem getParam_set_count_id (p : Params) (v : String) :
    getParam (setParam p "_count" v) "_id" = getParam p "_id" :=
  getParam_set_count_ne p v _ (by decide)

/-- Updating `_count` leaves `_since` unchanged. -/
theorem getParam_set_count_since (p : Params) (v : String) :
    getParam (setParam p "_count" v) "_since" = getParam p "_since" :=
  getParam_set_count_ne p v _ (by decide)

/-- Updating `_count` leaves `_summary` unchanged. -/
theorem getParam_set_count_summary (p : Params) (v : String) :
    getParam (setParam p "_count" v) "_summary" = getParam p "_summary" :=
  getParam_set_count_ne p v _ (by decide)

/-- Updating `_count` leaves `name` unchanged. -/
theorem getParam_set_count_name (p : Params) (v : String) :
    getParam (setParam p "_count" v) "name" = getParam p "name" :=
  getParam_set_count_ne p v _ (by decide)

/-- Updating `_count` leaves `identifier` unchanged. -/
theorem getParam_set_count_identifier (p : Params) (v : String) :
    getParam (setParam p "_count" v) "identifier" = getParam p "identifier" :=
  getParam_set_count_ne p v _ (by decide)

/-- Updating `_count` leaves `subject` unchanged. -/
theorem getParam_set_count_subject (p : Params) (v : String) :
    getParam (setParam p "_count" v) "subject" = getParam p "subject" :=
  getParam_set_count_ne p v _ (by decide)

/-- Updating `_count` leaves `patient` unchanged. -/
theorem getParam_set_count_patient (p : Params) (v : String) :
    getParam (setParam p "_count" v) "patient" = getParam p "patient" :=
  getParam_set_count_ne p v _ (by decide)

/-- Updating `_count` leaves `category` unchanged. -/
theorem getParam_set_count_category (p : Params) (v : String) :
    getParam (setParam p "_count" v) "category" = getParam p "category" :=
  getParam_set_count_ne p v _ (by decide)

/-- The recognised type-specific parameters ignore `_count`. -/
theorem has_resource_params_set_count (rt : String) (p : Params) (v : String) :
    has_resource_params rt (setParam p "_count" v) = has_resource_params rt p := by
  unfold has_resource_params hasKey
  rw [getParam_set_count_name, getParam_set_count_identifier,
    getParam_set_count_subject, getParam_set_count_patient,
    getParam_set_count_category]

/-- The per-type filter clauses ignore `_count`. -/
theorem resource_type_filter_set_count (rt : String) (p : Params) (v : String)
    (r : Json) :
    resource_type_filter rt (ofParams (setParam p "_count" v)) r
      = resource_type_filter rt (ofParams p) r := by
  unfold resource_type_filter patient_search_filter observation_search_filter
    encounter_search_filter condition_search_filter procedure_search_filter
    medication_request_search_filter medication_administration_search_filter
    medication_dispense_search_filter medication_statement_search_filter
    specimen_search_filter subject_clause category_clause
  simp only [ofParams_params, getParam_set_count_name,
    getParam_set_count_identifier, getParam_set_count_subject,
    getParam_set_count_patient, getParam_set_count_category]

/-- The compiled predicate body ignores `_count`. -/
theorem search_filter_set_count (rt : String) (p : Params) (v : String) (r : Json) :
    search_filter rt (ofParams (setParam p "_count" v)) r
      = search_filter rt (ofParams p) r := by
  unfold search_filter
  simp only [ofParams_id_search, ofParams_since, getParam_set_count_id,
    getParam_set_count_since, resource_type_filter_set_count]

/-- Predicate compilation ignores `_count` entirely. -/
theorem create_search_filter_set_count (rt : String) (p : Params) (v : String) :
    create_search_filter rt (ofParams (setParam p "_count" v))
      = create_search_filter rt (ofParams p) := by
  have hf : search_filter rt (ofParams (setParam p "_count" v))
      = search_filter rt (ofParams p) :=
    funext (fun r => search_filter_set_count rt p v r)
  unfold create_search_filter
  rw [hf]
  simp only [ofParams_id_search, ofParams_since, ofParams_params,
    getParam_set_count_id, getParam_set_count_since, has_resource_params_set_count]

/-- Characterization of the equality test against a query string. -/
theorem pyEqJsonStr_true_iff (o : Option Json) (s : String) :
    pyEqJsonStr o s = true ↔ o = some (Json.jstr s) := by
  cases o with
  | none => simp [pyEqJsonStr]
  | some j => cases j <;> simp [pyEqJsonStr]

/-- With a truthy `_id` the compiled predicate is exactly id equality and
every other clause is skipped. -/
theorem search_filter_id (rt : String) (sp : FHIRSearchParameters) (i : String)
    (hid : sp.id_search = some i) (hne : i ≠ "") (r : Json) :
    search_filter rt sp r = pyEqJsonStr (jget r "id") i := by
  unfold search_filter
  rw [hid]
  simp [truthyS, hne]

/-- With a truthy `_id` a predicate is always compiled. -/
theorem create_search_filter_of_id (rt : String) (sp : FHIRSearchParameters)
    (i : String) (hid : sp.id_search = some i) (hne : i ≠ "") :
    create_search_filter rt sp = some (search_filter rt sp) := by
  unfold create_search_filter
  rw [hid]
  simp [truthyS, hne]

/-! ## Canonical serialization lemmas -/

/-- The code-point order is total. -/
theorem charListLE_total : ∀ x y, charListLE x y = true ∨ charListLE y x = true := by
  intro x
  induction x with
  | nil => intro y; left; rfl
  | cons a as ih =>
    intro y
    cases y with
    | nil => right; rfl
    | cons b bs =>
      by_cases h1 : a.toNat < b.toNat
      · left; simp [charListLE, h1]
      · by_cases h2 : b.toNat < a.toNat
        · right; simp [charListLE, h2]
        · rcases ih bs with h | h
          · left; simp [charListLE, h1, h2, h]
          · right; simp [charListLE, h1, h2, h]

/-- The code-point order is transitive. -/
theorem charListLE_trans : ∀ x y z, charListLE x y = true → charListLE y z = true →
    charListLE x z = true := by
  intro x
  induction x with
  | nil => intro y z h1 h2; rfl
  | cons a as ih =>
    intro y z h1 h2
    cases y with
    | nil => simp [charListLE] at h1
    | cons b bs =>
      cases z with
      | nil => simp [charListLE] at h2
      | cons c cs =>
        simp only [charListLE] at h1 h2 ⊢
        by_cases hab : a.toNat < b.toNat
        · by_cases hbc : b.toNat < c.toNat
          · have hac : a.toNat < c.toNat := lt_trans hab hbc
            simp [hac]
          · by_cases hcb : c.toNat < b.toNat
            · rw [if_neg hbc, if_pos hcb] at h2
              cases h2
            · have hac : a.toNat < c.toNat := by omega
              simp [hac]
        · by_cases hba : b.toNat < a.toNat
          · rw [if_neg hab, if_pos hba] at h1
            cases h1
          · rw [if_neg hab, if_neg hba] at h1
            by_cases hbc : b.toNat < c.toNat
            · have hac : a.toNat < c.toNat := by omega
              simp [hac]
            · by_cases hcb : c.toNat < b.toNat
              · rw [if_neg hbc, if_pos hcb] at h2
                cases h2
              · rw [if_neg hbc, if_neg hcb] at h2
                have hac1 : ¬a.toNat < c.toNat := by omega
                have hac2 : ¬c.toNat < a.toNat := by omega
                rw [if_neg hac1, if_neg hac2]
                exact ih bs cs h1 h2

/-- Characters with equal code points are equal. -/
theorem charEq_of_toNat (a b : Char) (h : a.toNat = b.toNat) : a = b :=
  Char.ext (UInt32.ext h)

/-- The code-point order is antisymmetric. -/
theorem charListLE_antisymm : ∀ x y, charListLE x y = true → charListLE y x = true →
    x = y := by
  intro x
  induction x with
  | nil =>
    intro y h1 h2
    cases y with
    | nil => rfl
    | cons b bs => simp [charListLE] at h2
  | cons a as ih =>
    intro y h1 h2
    cases y with
    | nil => simp [charListLE] at h1
    | cons b bs =>
      simp only [charListLE] at h1 h2
      by_cases hab : a.toNat < b.toNat
      · rw [if_neg (by omega), if_pos hab] at h2
        cases h2
      · by_cases hba : b.toNat < a.toNat
        · rw [if_neg hab, if_pos hba] at h1
          cases h1
        · have heq : a = b := charEq_of_toNat a b (by omega)
          rw [if_neg hab, if_neg hba] at h1
          rw [if_neg hba, if_neg hab] at h2
          rw [heq, ih bs h1 h2]

/-- Key antisymmetry at the pair level. -/
theorem keyLE_antisymm_fst {a b : String × String} (h1 : keyLE a b)
    (h2 : keyLE b a) : a.1 = b.1 :=
  congrArg String.mk (charListLE_antisymm _ _ h1 h2)

instance : IsTotal (String × String) keyLE :=
  ⟨fun a b => charListLE_total a.1.data b.1.data⟩

instance : IsTrans (String × String) keyLE :=
  ⟨fun _ _ _ h1 h2 => charListLE_trans _ _ _ h1 h2⟩

/-- The key sort permutes its input. -/
theorem sortPairs_perm (l : List (String × String)) : (sortPairs l).Perm l :=
  List.perm_insertionSort keyLE l

/-- The key sort sorts by key. -/
theorem sortPairs_sorted (l : List (String × String)) :
    List.Sorted keyLE (sortPairs l) :=
  List.sorted_insertionSort keyLE l

/-- Two permutations of the same members with distinct keys sort to the
identical list: the canonical key order erases insertion order. -/
theorem sortPairs_eq_of_perm (l1 l2 : List (String × String))
    (hp : l1.Perm l2) (hnd : (l1.map Prod.fst).Nodup) :
    sortPairs l1 = sortPairs l2 := by
  have hperm : (sortPairs l1).Perm (sortPairs l2) :=
    (sortPairs_perm l1).trans (hp.trans (sortPairs_perm l2).symm)
  have hnd1 : ((sortPairs l1).map Prod.fst).Nodup :=
    (((sortPairs_perm l1).map Prod.fst).nodup_iff).mpr hnd
  have hnd2 : ((sortPairs l2).map Prod.fst).Nodup := by
    have hnd' : (l2.map Prod.fst).Nodup := ((hp.map Prod.fst).nodup_iff).mp hnd
    exact (((sortPairs_perm l2).map Prod.fst).nodup_iff).mpr hnd'
  have hs1 : List.Pairwise (fun a b : String × String => keyLE a b ∧ a.1 ≠ b.1)
      (sortPairs l1) :=
    List.Pairwise.and (sortPairs_sorted l1) ((List.pairwise_map).mp hnd1)
  have hs2 : List.Pairwise (fun a b : String × String => keyLE a b ∧ a.1 ≠ b.1)
      (sortPairs l2) :=
    List.Pairwise.and (sortPairs_sorted l2) ((List.pairwise_map).mp hnd2)
  letI : IsAntisymm (String × String) (fun a b => keyLE a b ∧ a.1 ≠ b.1) :=
    ⟨fun _ _ h1 h2 => absurd (keyLE_antisymm_fst h1.1 h2.1) h1.2⟩
  exact List.eq_of_perm_of_sorted hperm hs1 hs2

/-- The node count of an object's members is permutation-invariant. -/
theorem jsonSizeFields_perm {f1 f2 : List (String × Json)} (h : f1.Perm f2) :
    jsonSizeFields f1 = jsonSizeFields f2 := by
  induction h with
  | nil => rfl
  | cons x h ih =>
    obtain ⟨k, v⟩ := x
    simp [jsonSizeFields, ih]
  | swap x y l =>
    obtain ⟨kx, vx⟩ := x
    obtain ⟨ky, vy⟩ := y
    simp [jsonSizeFields]
    omega
  | trans h1 h2 ih1 ih2 => exact ih1.trans ih2

/-- At any fixed fuel, serializing an object is insertion-order
independent for members with distinct keys. -/
theorem dumpsF_jobj_perm (m : Nat) (f1 f2 : List (String × Json))
    (hp : f1.Perm f2) (hnd : (f1.map Prod.fst).Nodup) :
    dumpsF (m + 1) (.jobj f1) = dumpsF (m + 1) (.jobj f2) := by
  have h1 : sortPairs (f1.map (fun kv =>
        (kv.1, dumpJString kv.1 ++ ":" ++ dumpsF m kv.2)))
      = sortPairs (f2.map (fun kv =>
        (kv.1, dumpJString kv.1 ++ ":" ++ dumpsF m kv.2))) := by
    apply sortPairs_eq_of_perm
    · exact hp.map _
    · rw [List.map_map]
      have hcomp : (Prod.fst ∘ fun kv : String × Json =>
          (kv.1, dumpJString kv.1 ++ ":" ++ dumpsF m kv.2)) = Prod.fst := rfl
      rw [hcomp]
      exact hnd
  simp only [dumpsF]
  rw [h1]

/-- Canonical serialization of an object is insertion-order independent:
permuting members with distinct keys leaves the output unchanged. -/
theorem dumps_jobj_perm (f1 f2 : List (String × Json)) (hp : f1.Perm f2)
    (hnd : (f1.map Prod.fst).Nodup) :
    json_dumps_canonical (.jobj f1) = json_dumps_canonical (.jobj f2) := by
  unfold json_dumps_canonical
  have hsz : jsonSize (Json.jobj f1) = jsonSize (Json.jobj f2) := by
    simp [jsonSize, jsonSizeFields_perm hp]
  rw [hsz]
  obtain ⟨m, hm⟩ : ∃ m, jsonSize (Json.jobj f2) = m + 1 :=
    ⟨jsonSizeFields f2, by simp [jsonSize, Nat.add_comm]⟩
  rw [hm]
  exact dumpsF_jobj_perm m f1 f2 hp hnd

/-! ## Claim theorems -/

/-- Claim C1, counterexample: on a Patient file with three non-blank JSON
lines of which two parse and one is malformed, the unfiltered full-parse
count is `3` (every non-blank line is counted without parsing, src/main.py
509-510), not the claimed `2`, while the page with limit `10` holds only
the `2` parseable records — the malformed line is excluded from the page
but not from the count. -/
theorem c1_counterexample :
    count_fhir_resources_json_parse exC1fs "Patient" none = 3
    ∧ (get_fhir_resources_page exC1fs "Patient" none (some 10)).length = 2
    ∧ count_fhir_resources_json_parse exC1fs "Patient" none ≠ 2 := by
  refine ⟨by rfl, by rfl, by decide⟩

/-- Claim C1, amended: with a predicate present, a malformed stored line is
excluded from the count and from the unlimited page consistently (the two
are equal); for an unfiltered query the count counts every non-blank line,
malformed ones included, while the page excludes them — the example file
yields count `3` and a page of exactly the `2` parseable records in file
order. -/
theorem c1_malformed_line_consistency :
    (∀ (fs : FS) (rt : String) (g : Json → Bool),
       count_fhir_resources_json_parse fs rt (some g)
         = (get_fhir_resources_page fs rt (some g) none).length)
    ∧ count_fhir_resources_json_parse exC1fs "Patient" none = 3
    ∧ get_fhir_resources_page exC1fs "Patient" none (some 10) = [exRec1, exRec2] := by
  refine ⟨count_some_eq_page_none_length, by rfl, by rfl⟩

/-- Claim C2: at the failing input — an explicit resolved limit of `0` on a
type whose file holds two parseable records — the page operation returns
the entire corpus instead of at most `0` records: `if count` treats the
limit `0` like an absent limit (src/main.py 545-551), contradicting the
claim and the function's own docstring. -/
theorem c2_zero_limit_returns_all :
    get_fhir_resources_page exC1fs "Patient" none (some 0) = [exRec1, exRec2]
    ∧ ¬((get_fhir_resources_page exC1fs "Patient" none (some 0)).length ≤ 0) := by
  refine ⟨by rfl, by decide⟩

/-- Claim C3, counterexample: for the query whose only parameter is a
subject filter for id `abc123`, on a file whose single record references
`Patient/abc1234`, the optimized text pre-filter counts `1` (its bare
`Patient/abc123` fallback substring matches the extended id) while the
full-parse strategy counts `0` — the two strategies disagree. -/
theorem c3_counterexample :
    count_fhir_resources_optimized exC3fs noLineCounts "Observation" (some spC3)
        (create_search_filter "Observation" spC3)
      ≠ count_fhir_resources_json_parse exC3fs "Observation"
        (create_search_filter "Observation" spC3) := by
  decide

/-- Claim C3, amended: the compiled subject predicate itself matches a
record referencing `Patient/abc123` and rejects one referencing
`Patient/abc1234`; the optimized text pre-filter, however, is a heuristic
that can overcount relative to the full parse — on the `Patient/abc1234`
file it returns `1` against the full-parse total `0`, so the two strategies
agree only under the heuristic's serialization assumptions, not for every
single-subject-filter query. -/
theorem c3_text_prefilter_heuristic :
    search_filter "Observation" spC3 exC3RecGood = true
    ∧ search_filter "Observation" spC3 exC3Rec = false
    ∧ count_fhir_resources_optimized exC3fs noLineCounts "Observation" (some spC3)
        (create_search_filter "Observation" spC3) = 1
    ∧ count_fhir_resources_json_parse exC3fs "Observation"
        (create_search_filter "Observation" spC3) = 0 := by
  refine ⟨by decide, by decide, by decide, by decide⟩

/-- Claim C4: with a truthy exact-id parameter the compiled predicate is
returned and equals id equality on every record (all other clauses are
skipped), and under uniqueness of string ids within the type's corpus the
page has length at most `1` for every limit. -/
theorem c4_id_search_exclusive :
    ∀ (fs : FS) (rt : String) (p : Params) (i : String) (L : Option Int),
      getParam p "_id" = some i → i ≠ "" →
      create_search_filter rt (ofParams p) = some (search_filter rt (ofParams p))
      ∧ (∀ r : Json, search_filter rt (ofParams p) r = pyEqJsonStr (jget r "id") i)
      ∧ ((corpusOf fs rt).Pairwise
            (fun a b => ∀ s : String,
              jget a "id" = some (Json.jstr s) → jget b "id" ≠ some (Json.jstr s)) →
          (get_fhir_resources_page fs rt (create_search_filter rt (ofParams p)) L).length ≤ 1) := by
  intro fs rt p i L hi hne
  have hid : (ofParams p).id_search = some i := by rw [ofParams_id_search, hi]
  have hsome := create_search_filter_of_id rt (ofParams p) i hid hne
  refine ⟨hsome, fun r => search_filter_id rt (ofParams p) i hid hne r, ?_⟩
  intro huniq
  rw [hsome]
  have hle := page_length_le_count fs rt (some (search_filter rt (ofParams p))) L
  have hcnt := count_eq_corpus_filter fs rt (search_filter rt (ofParams p))
  have hfilter :
      ((corpusOf fs rt).filter (search_filter rt (ofParams p))).length ≤ 1 := by
    apply filter_length_le_one
    refine huniq.imp ?_
    intro a b hab hcon
    obtain ⟨ha, hb⟩ := hcon
    rw [search_filter_id rt (ofParams p) i hid hne a, pyEqJsonStr_true_iff] at ha
    rw [search_filter_id rt (ofParams p) i hid hne b, pyEqJsonStr_true_iff] at hb
    exact (hab i ha) hb
  omega

/-- Claim C5: the `_since` parameter `2024-01-01T00:00:00Z` parses with the
trailing `Z` normalized to an explicit UTC offset; on records of the
guarded shapes the since clause rejects a record exactly when its
modification timestamp is a present truthy string that parses to a
datetime strictly earlier than the since value (missing or unparseable
timestamps are never excluded); an unparseable `_since` drops the clause
silently (with no other parameter the compiled filter is `none`); and the
example excludes a `2023-12-31T23:59:59Z` record while keeping a
`2024-01-01T00:00:01Z` one. -/
theorem c5_since_clause :
    parse_since (some "2024-01-01T00:00:00Z") = some exSinceDt
    ∧ (∀ (dt : PyDateTime) (r : Json),
        metaIsObj r = true → metaLuIsStr r = true → sinceCmpAware dt r = true →
        (sinceKeeps dt r = false ↔
          ∃ s rd, metaLastUpdated r = some (Json.jstr s) ∧ s ≠ ""
            ∧ fromisoformat (znormZ s) = some rd
            ∧ instantSeconds rd < instantSeconds dt))
    ∧ (∀ s : String, fromisoformat (znormZ s) = none →
        ∀ rt, create_search_filter rt (ofParams [("_since", s)]) = none)
    ∧ sinceKeeps exSinceDt exRecOld = false
    ∧ sinceKeeps exSinceDt exRecNew = true := by
  refine ⟨by decide, ?_, ?_, by decide, by decide⟩
  · intro dt r _ _ _
    unfold sinceKeeps
    cases hml : metaLastUpdated r with
    | none => simp [hml]
    | some v =>
      cases v with
      | jstr s =>
        dsimp only
        by_cases hs : s = ""
        · subst hs
          simp [hml]
        · rw [if_pos hs]
          cases hfi : fromisoformat (znormZ s) with
          | none => simp [hml, hfi]
          | some rd => simp [hml, hfi, hs, pyDateTimeLt]
      | jnull => simp [hml]
      | jbool b => simp [hml]
      | jnum n => simp [hml]
      | jarr xs => simp [hml]
      | jobj fields => simp [hml]
  · intro s hnone rt
    have hid : (ofParams [("_since", s)]).id_search = none := by
      simp [ofParams_id_search, getParam]
    have hsince : (ofParams [("_since", s)]).since = none := by
      rw [ofParams_since]
      simp [getParam, parse_since, hnone]
    have hhr : has_resource_params rt [("_since", s)] = false := by
      unfold has_resource_params hasKey
      simp [getParam]
    unfold create_search_filter
    rw [hid, hsince, ofParams_params, hhr]
    simp [truthyS]

/-- Claim C6: a `_count` string that fails integer parsing is treated as
absent, so the caller-applied default `100` is used; a parsed negative
value clamps to `0`; a parsed value is resolved to at most the caller's
ceiling `1000`; and an absent `_count` remains distinguishable from an
explicit `0` after parsing. -/
theorem c6_count_parsing :
    (∀ s : String, pyParseInt s = none →
       parse_count (some s) = none
       ∧ (ofParams [("_count", s)]).get_count 100 1000 = 100)
    ∧ (∀ (s : String) (v : Int), pyParseInt s = some v → v < 0 →
        parse_count (some s) = some 0)
    ∧ (∀ (s : String) (v : Int), pyParseInt s = some v →
        (ofParams [("_count", s)]).get_count 100 1000 = min (max 0 v) 1000
        ∧ (ofParams [("_count", s)]).get_count 100 1000 ≤ 1000)
    ∧ (ofParams []).count = none
    ∧ (ofParams [("_count", "0")]).count = some 0
    ∧ (ofParams []).count ≠ (ofParams [("_count", "0")]).count := by
  refine ⟨?_, ?_, ?_, by rfl, by rfl, by decide⟩
  · intro s h
    have hp : parse_count (some s) = none := by simp [parse_count, h]
    refine ⟨hp, ?_⟩
    simp [FHIRSearchParameters.get_count, ofParams_count, getParam, hp]
  · intro s v h hv
    simp only [parse_count, h]
    congr 1
    omega
  · intro s v h
    have h1 : (ofParams [("_count", s)]).get_count 100 1000 = min (max 0 v) 1000 := by
      simp [FHIRSearchParameters.get_count, ofParams_count, getParam, parse_count, h]
    exact ⟨h1, by rw [h1]; exact min_le_right _ _⟩

/-- Claim C7: for a full-mode search (no `_summary=count`), the reported
total is invariant under the raw `_count` parameter — resolving the same
query with any two limits yields the same total, because predicate
compilation and the full-parse count never consult `_count`. -/
theorem c7_total_invariant_under_limit :
    ∀ (fs : FS) (lc : String → Option Nat) (rt : String) (p : Params)
      (v1 v2 : String),
      getParam p "_summary" ≠ some "count" →
      (fhir_search fs lc rt (setParam p "_count" v1)).total
        = (fhir_search fs lc rt (setParam p "_count" v2)).total := by
  intro fs lc rt p v1 v2 hns
  unfold fhir_search
  simp only [ofParams_summary, getParam_set_count_summary]
  rw [if_neg hns, if_neg hns]
  dsimp only
  unfold count_fhir_resources
  rw [create_search_filter_set_count rt p v1, create_search_filter_set_count rt p v2]

/-- Claim C8: the content validator is a deterministic function of the
canonical serialization — byte-identical serializations give identical
validator strings; the serialization itself is independent of the object's
key insertion order (for distinct keys); and a single field change changes
the serialized content the validator is computed from. -/
theorem c8_etag_deterministic :
    (∀ f1 f2 : List (String × Json),
       json_dumps_canonical (.jobj f1) = json_dumps_canonical (.jobj f2) →
       generate_etag (.jobj f1) = generate_etag (.jobj f2))
    ∧ (∀ f1 f2 : List (String × Json), f1.Perm f2 → (f1.map Prod.fst).Nodup →
        json_dumps_canonical (.jobj f1) = json_dumps_canonical (.jobj f2))
    ∧ json_dumps_canonical (.jobj exFieldsBA) = json_dumps_canonical (.jobj exFieldsAB)
    ∧ json_dumps_canonical (.jobj exFieldsBA) ≠ json_dumps_canonical (.jobj exFieldsBA') := by
  refine ⟨?_, dumps_jobj_perm, by decide, by decide⟩
  intro f1 f2 h
  unfold generate_etag
  rw [h]

/-- Claim C9: the search endpoint signals `404` exactly for a record type
unknown to the file mapping; the read endpoint signals `404` exactly for an
unknown type or when no parseable record of the type carries the requested
id; and a configured backing file missing on disk contributes zero records
without being an error. -/
theorem c9_not_found_signaling :
    (∀ (fs : FS) (lc : String → Option Nat) (rt : String) (p : Params),
       fhir_resource_search fs lc rt p = Except.error 404 ↔ FILE_MAPPINGS rt = none)
    ∧ (∀ (fs : FS) (rt rid : String), rid ≠ "" →
        (fhir_resource_read fs rt rid = Except.error 404 ↔
          (FILE_MAPPINGS rt = none
            ∨ ∀ r ∈ corpusOf fs rt, jget r "id" ≠ some (Json.jstr rid))))
    ∧ (∀ (fs : FS) (fp : String) (f : Option (Json → Bool)) (lim : Option Int),
        fs fp = none → read_ndjson_file fs fp f lim = []) := by
  refine ⟨?_, ?_, ?_⟩
  · intro fs lc rt p
    unfold fhir_resource_search
    cases h : FILE_MAPPINGS rt with
    | none => simp [h]
    | some files => simp [h]
  · intro fs rt rid hne
    unfold fhir_resource_read
    cases hm : FILE_MAPPINGS rt with
    | none => simp [hm]
    | some files =>
      dsimp only
      have hid : (ofParams [("_id", rid)]).id_search = some rid := by
        simp [ofParams_id_search, getParam]
      have hsome := create_search_filter_of_id rt (ofParams [("_id", rid)]) rid hid hne
      rw [hsome]
      have hiff : readFirstFile fs
            (some (search_filter rt (ofParams [("_id", rid)]))) files = []
          ↔ ∀ r ∈ corpusOf fs rt, jget r "id" ≠ some (Json.jstr rid) := by
        rw [readFirstFile_nil_iff, concatMatches_some_eq_filter,
          List.filter_eq_nil_iff]
        have hcor : corpusOf fs rt = concatMatches fs none files := by
          unfold corpusOf
          rw [hm]
        rw [hcor]
        constructor
        · intro h r hr hcontra
          apply h r hr
          rw [search_filter_id rt (ofParams [("_id", rid)]) rid hid hne r,
            pyEqJsonStr_true_iff]
          exact hcontra
        · intro h r hr hgr
          rw [search_filter_id rt (ofParams [("_id", rid)]) rid hid hne r,
            pyEqJsonStr_true_iff] at hgr
          exact (h r hr) hgr
      cases hrf : readFirstFile fs
          (some (search_filter rt (ofParams [("_id", rid)]))) files with
      | nil =>
        dsimp only
        constructor
        · intro _
          exact Or.inr (hiff.mp hrf)
        · intro _
          rfl
      | cons r rest =>
        dsimp only
        constructor
        · intro hcon
          exact absurd hcon (by simp)
        · intro hrhs
          rcases hrhs with hl | hr2
          · simp at hl
          · have hnil := hiff.mpr hr2
            rw [hrf] at hnil
            cases hnil
  · intro fs fp f lim h
    unfold read_ndjson_file
    rw [h]

/-- Claim C10: despite its docstring, the compatibility wrapper
`count_fhir_resources` invokes the full-parse counter, so every full-mode
search total is computed by the full-parse strategy for every predicate
shape — only `_summary=count` requests exercise the optimized tiers, which
can genuinely diverge (a stale line-count cache answers `42` against a
full-parse total of `0`). -/
theorem c10_wrapper_full_parse :
    (∀ (fs : FS) (rt : String) (f : Option (Json → Bool)),
       count_fhir_resources fs rt f = count_fhir_resources_json_parse fs rt f)
    ∧ (∀ (fs : FS) (lc : String → Option Nat) (rt : String) (p : Params),
        getParam p "_summary" ≠ some "count" →
        (fhir_search fs lc rt p).total
          = count_fhir_resources_json_parse fs rt (create_search_filter rt (ofParams p)))
    ∧ count_fhir_resources_optimized exEmptyFs exLineCounts "Patient" none none = 42
    ∧ count_fhir_resources_json_parse exEmptyFs "Patient" none = 0 := by
  refine ⟨fun fs rt f => rfl, ?_, by rfl, by rfl⟩
  intro fs lc rt p h
  unfold fhir_search
  simp only [ofParams_summary]
  rw [if_neg h]
  rfl

/-! ## Witnesses -/

/-- Witness for C4 at a concrete store and query. -/
theorem c4_id_search_exclusive_witness :
    getParam [("_id", "p1")] "_id" = some "p1"
    ∧ ("p1" : String) ≠ ""
    ∧ (get_fhir_resources_page exC1fs "Patient"
        (create_search_filter "Patient" (ofParams [("_id", "p1")])) (some 100)).length ≤ 1 := by
  refine ⟨by rfl, by decide, ?_⟩
  have huniq : (corpusOf exC1fs "Patient").Pairwise
      (fun a b => ∀ s : String,
        jget a "id" = some (Json.jstr s) → jget b "id" ≠ some (Json.jstr s)) := by
    have hc : corpusOf exC1fs "Patient" = [exRec1, exRec2] := by rfl
    rw [hc]
    constructor
    · intro b hb s hs1
      simp only [List.mem_singleton] at hb
      subst hb
      have h1 : jget exRec1 "id" = some (Json.jstr "p1") := by rfl
      rw [h1] at hs1
      injection hs1 with h2
      injection h2 with h3
      subst h3
      intro hcon
      have h4 : jget exRec2 "id" = some (Json.jstr "p2") := by rfl
      rw [h4] at hcon
      injection hcon with h5
      injection h5 with h6
      exact absurd h6 (by decide)
    · simp
  exact (c4_id_search_exclusive exC1fs "Patient" [("_id", "p1")] "p1" (some 100)
    (by rfl) (by decide)).2.2 huniq

/-- Witness for C5 at the specification's example record. -/
theorem c5_since_clause_witness :
    metaIsObj exRecOld = true
    ∧ metaLuIsStr exRecOld = true
    ∧ sinceCmpAware exSinceDt exRecOld = true
    ∧ (sinceKeeps exSinceDt exRecOld = false ↔
        ∃ s rd, metaLastUpdated exRecOld = some (Json.jstr s) ∧ s ≠ ""
          ∧ fromisoformat (znormZ s) = some rd
          ∧ instantSeconds rd < instantSeconds exSinceDt) :=
  ⟨by decide, by decide, by decide,
    c5_since_clause.2.1 exSinceDt exRecOld (by decide) (by decide) (by decide)⟩

/-- Witness for C6 at concrete parameter strings. -/
theorem c6_count_parsing_witness :
    pyParseInt "abc" = none
    ∧ (ofParams [("_count", "abc")]).get_count 100 1000 = 100
    ∧ pyParseInt "-7" = some (-7)
    ∧ parse_count (some "-7") = some 0
    ∧ (ofParams [("_count", "2500")]).get_count 100 1000 ≤ 1000 := by
  refine ⟨by decide, ?_, by decide, ?_, ?_⟩
  · exact (c6_count_parsing.1 "abc" (by decide)).2
  · exact c6_count_parsing.2.1 "-7" (-7) (by decide) (by decide)
  · exact (c6_count_parsing.2.2.1 "2500" 2500 (by decide)).2

/-- Witness for C7 at a concrete store, query and two limits. -/
theorem c7_total_invariant_witness :
    getParam [("subject", "abc123")] "_summary" ≠ some "count"
    ∧ (fhir_search exC3fs noLineCounts "Observation"
        (setParam [("subject", "abc123")] "_count" "5")).total
      = (fhir_search exC3fs noLineCounts "Observation"
          (setParam [("subject", "abc123")] "_count" "500")).total :=
  ⟨by decide, c7_total_invariant_under_limit exC3fs noLineCounts "Observation"
    [("subject", "abc123")] "5" "500" (by decide)⟩

/-- Witness for C8 at the two insertion orders of the same object. -/
theorem c8_etag_deterministic_witness :
    json_dumps_canonical (.jobj exFieldsBA) = json_dumps_canonical (.jobj exFieldsAB)
    ∧ generate_etag (.jobj exFieldsBA) = generate_etag (.jobj exFieldsAB) :=
  ⟨by decide, c8_etag_deterministic.1 exFieldsBA exFieldsAB (by decide)⟩

/-- Witness for C9 at a concrete store and an id held by no record. -/
theorem c9_not_found_signaling_witness :
    ("nosuch" : String) ≠ ""
    ∧ (fhir_resource_read exC1fs "Patient" "nosuch" = Except.error 404 ↔
        (FILE_MAPPINGS "Patient" = none
          ∨ ∀ r ∈ corpusOf exC1fs "Patient", jget r "id" ≠ some (Json.jstr "nosuch"))) :=
  ⟨by decide, c9_not_found_signaling.2.1 exC1fs "Patient" "nosuch" (by decide)⟩

/-- Witness for C10 at a concrete unfiltered full-mode search. -/
theorem c10_wrapper_full_parse_witness :
    getParam ([] : Params) "_summary" ≠ some "count"
    ∧ (fhir_search exC1fs noLineCounts "Patient" []).total
      = count_fhir_resources_json_parse exC1fs "Patient"
          (create_search_filter "Patient" (ofParams [])) :=
  ⟨by decide, c10_wrapper_full_parse.2.1 exC1fs noLineCounts "Patient" [] (by decide)⟩
